import Mathlib

/-!
# pfs: a framebuffer platformer — verification development

Shallow embedding of `src/main.c`.

Modelling conventions

* C `float` values are modelled by rationals `ℚ` (exact arithmetic: rounding, infinities
  and NaN are abstracted away); a conversion of a `float` to `int` truncates toward zero
  and yields `INT_MIN` when the result does not fit the 32-bit `int`.
  `check_collision` is kept generic in the carrier so that its symmetry is seen not to
  depend on any arithmetic law.
* C `int` arguments of the rasterizer are integers of the 32-bit range; every arithmetic
  result is reduced to that range by `wrap32` (two's complement), and a comparison of a
  signed `int` against the unsigned `xres` / `yres` (type `__u32`) converts the signed value
  with `toU32`, as the usual arithmetic conversions of C prescribe.
* The rasterizer is modelled by the sequence of pixel stores it performs, in execution
  order; loops over an index carry a fuel that is shown to be adequate.  A pixel store is
  applied to a byte memory by `store_pixel`; memories are maps from byte offsets to bytes,
  so that a store past the end of a buffer can be expressed.
* The `while` loop of `main` is `main_iteration` (one pass) and `main_loop` (a run over a
  finite sequence of inputs); `Reachable` collects the states at the head of the loop.
* `score` is a 32-bit `int`: its additions are reduced by `wrap32`.  `jumps_remaining`
  (decremented only while positive) and `frame_count` are mathematical integers.
* Values returned by `rand()` are explicit arguments, `sinf` is a function argument.
* Fixed-size C arrays are lists; a loop over all slots is a recursion over the list.
* The local `on_platform` of `update_game` is assigned but never read and is left out, as
  are `delta_time` and `last_frame`, which the simulation never reads.
-/

namespace Pfs

/-! ## Game constants -/

def MAX_PLATFORMS : Nat := 14
def MAX_COLLECTIBLES : Nat := 20
def PLAYER_WIDTH : Int := 30
def PLAYER_HEIGHT : Int := 30
def PLATFORM_HEIGHT : Int := 11
def COLLECTIBLE_SIZE : Int := 15
def GRAVITY : ℚ := 1
def JUMP_FORCE : ℚ := -12
def MOVE_SPEED : ℚ := 8
def DOUBLE_JUMP_FORCE : ℚ := -10
def MAX_VELOCITY : ℚ := 15

/-! ## Axis-aligned bounding-box test -/

/-- Source `check_collision` (main.c 472-477): the four comparisons in source order.
The `int` extents are converted to the floating carrier `F` before the addition. -/
def check_collision {F : Type} [LT F] [Add F] [IntCast F]
    [DecidableRel ((· < ·) : F → F → Prop)]
    (x1 y1 : F) (w1 h1 : Int) (x2 y2 : F) (w2 h2 : Int) : Bool :=
  decide (x1 < x2 + (w2 : F)) &&
  decide (x1 + (w1 : F) > x2) &&
  decide (y1 < y2 + (h2 : F)) &&
  decide (y1 + (h1 : F) > y2)

/-! ## Machine integers -/

/-- Value of a 32-bit two's complement `int` holding the mathematical result `n`. -/
def wrap32 (n : Int) : Int := (n + 2147483648) % 4294967296 - 2147483648

/-- Conversion of an `int` to `unsigned int` (reduction modulo 2^32). -/
def toU32 (n : Int) : Int := n % 4294967296

/-- The integer `n` is representable as a 32-bit `int`. -/
abbrev isInt (n : Int) : Prop := -2147483648 ≤ n ∧ n < 2147483648

/-! ## Surface and rasterizer -/

/-- The fields of `vinfo` / `finfo` that the core reads (all of type `__u32`). -/
structure Surface where
  xres : Nat
  yres : Nat
  bits_per_pixel : Nat
  line_length : Nat
  deriving DecidableEq, Repr

/-- One execution of the four-byte store block of `draw_rect` (main.c 235-240) or
`draw_circle` (main.c 254-259): the pixel column, the pixel row and the colour stored. -/
structure PixelWrite where
  x : Int
  y : Int
  color : Nat
  deriving DecidableEq, Repr

/-- The loop `for (int i = start; cond(i); i++) body(i)`: the writes of the successive
iterations, in execution order.  `fuel` bounds the number of iterations; the increment is
the 32-bit one. -/
def for_loop (cond : Int → Bool) (body : Int → List PixelWrite) :
    Nat → Int → List PixelWrite
  | 0, _ => []
  | fuel + 1, i =>
    if cond i then body i ++ for_loop cond body fuel (wrap32 (i + 1)) else []

/-- Source `draw_rect` (main.c 231-244), as the sequence of pixel stores it performs.
Both loop conditions compare the signed index with the unsigned `yres` / `xres`, so the
index is converted with `toU32`.  The fuel `hi - start` is the exact distance to the first
bound, which the index cannot pass. -/
def draw_rect (s : Surface) (x y width height : Int) (color : Nat) : List PixelWrite :=
  for_loop (fun i => decide (i < wrap32 (y + height)) && decide (toU32 i < (s.yres : Int)))
    (fun i =>
      for_loop (fun j => decide (j < wrap32 (x + width)) && decide (toU32 j < (s.xres : Int)))
        (fun j => if i ≥ 0 ∧ j ≥ 0 then [⟨j, i, color⟩] else [])
        (wrap32 (x + width) - x).toNat x)
    (wrap32 (y + height) - y).toNat y

/-- Source `draw_circle` (main.c 246-264), as the sequence of pixel stores it performs.
Each loop runs from `-radius` to `radius`, that is `radius - (-radius) + 1` iterations.
(For `radius = INT_MAX` the increment of the index overflows, which C leaves undefined;
the model stops after one pass.) -/
def draw_circle (s : Surface) (x y radius : Int) (color : Nat) : List PixelWrite :=
  for_loop (fun i => decide (i ≤ radius))
    (fun i =>
      for_loop (fun j => decide (j ≤ radius))
        (fun j =>
          if wrap32 (wrap32 (i * i) + wrap32 (j * j)) ≤ wrap32 (radius * radius) then
            let draw_x := wrap32 (x + j)
            let draw_y := wrap32 (y + i)
            if draw_x ≥ 0 ∧ toU32 draw_x < (s.xres : Int) ∧
                draw_y ≥ 0 ∧ toU32 draw_y < (s.yres : Int) then
              [⟨draw_x, draw_y, color⟩]
            else []
          else [])
        (radius - wrap32 (-radius) + 1).toNat (wrap32 (-radius)))
    (radius - wrap32 (-radius) + 1).toNat (wrap32 (-radius))

/-! ## Pixel memory -/

/-- The bytes of a pixel memory (off-screen buffer or mapped framebuffer), addressed by
their offset from its first byte. -/
abbrev Memory := Int → Nat

/-- The offset `location` of a store block (main.c 235-236 and 254-255).  The operands
`bits_per_pixel` and `line_length` are `__u32`, so both products and the sum are computed
in `unsigned int`; the result is converted to `long`. -/
def location (s : Surface) (px py : Int) : Int :=
  toU32 (toU32 (toU32 px * ((s.bits_per_pixel / 8 : Nat) : Int)) +
    toU32 (toU32 py * (s.line_length : Int)))

/-- The four byte stores of a store block (main.c 237-240 and 256-259) into the memory
`m`: `color & 0xFF`, `(color >> 8) & 0xFF`, `(color >> 16) & 0xFF` and 0 at the offsets
`location`, `location + 1`, `location + 2` and `location + 3`. -/
def store_pixel (s : Surface) (m : Memory) (w : PixelWrite) : Memory :=
  Function.update
    (Function.update
      (Function.update
        (Function.update m (location s w.x w.y) (w.color &&& 0xFF))
        (location s w.x w.y + 1) ((w.color >>> 8) &&& 0xFF))
      (location s w.x w.y + 2) ((w.color >>> 16) &&& 0xFF))
    (location s w.x w.y + 3) 0

/-- The effect on the off-screen buffer of a sequence of pixel stores, as produced by
`draw_rect` and `draw_circle`. -/
def apply_writes (s : Surface) (m : Memory) (ws : List PixelWrite) : Memory :=
  ws.foldl (store_pixel s) m

/-- The byte count `xres * yres * bits_per_pixel / 8` of `init_game`, `clear_buffer` and
`swap_buffers` (main.c 172, 267, 271), computed in `unsigned int`. -/
def screensize (s : Surface) : Int :=
  toU32 (toU32 ((s.xres : Int) * (s.yres : Int)) * (s.bits_per_pixel : Int)) / 8

/-- The two pixel memories of the C `Game` aggregate: the mapped framebuffer `fbp` and
the off-screen `buffer`. -/
structure Frame where
  fbp : Memory
  buffer : Memory

/-- Source `clear_buffer` (main.c 266-268): `memset` of the first `screensize` bytes. -/
def clear_buffer (s : Surface) (f : Frame) : Frame :=
  { f with buffer := fun a => if 0 ≤ a ∧ a < screensize s then 0 else f.buffer a }

/-- Source `swap_buffers` (main.c 270-272): `memcpy` of the first `screensize` bytes of
`buffer` to `fbp`. -/
def swap_buffers (s : Surface) (f : Frame) : Frame :=
  { f with fbp := fun a => if 0 ≤ a ∧ a < screensize s then f.buffer a else f.fbp a }

/-! ## Entities -/

inductive GameState where
  | GAME_RUNNING
  | GAME_PAUSED
  | GAME_OVER
  deriving DecidableEq, Repr

structure Player where
  x : ℚ
  y : ℚ
  vel_x : ℚ
  vel_y : ℚ
  jumps_remaining : Int
  score : Int
  is_facing_right : Int
  deriving DecidableEq, Repr

structure Platform where
  x : Int
  y : Int
  width : Int
  is_moving : Int
  move_speed : ℚ
  initial_x : ℚ
  move_range : ℚ
  deriving DecidableEq, Repr

structure Collectible where
  x : ℚ
  y : ℚ
  is_active : Int
  type : Int
  animation_offset : ℚ
  deriving DecidableEq, Repr

/-- The part of the C `Game` aggregate that the simulation reads and writes.  The arrays
`platforms[MAX_PLATFORMS]` and `collectibles[MAX_COLLECTIBLES]` are lists. -/
structure Game where
  vinfo : Surface
  player : Player
  platforms : List Platform
  collectibles : List Collectible
  state : GameState
  frame_count : Int
  deriving DecidableEq, Repr

/-- The values returned by the calls of `rand()` that one tick can make: line 329 (spawn
decision), lines 331 and 332 (position) and line 430 (collectible type). -/
structure Draws where
  spawn_roll : Nat
  x_roll : Nat
  y_roll : Nat
  type_roll : Nat
  deriving DecidableEq, Repr

/-- The value of `q` with its fractional part discarded (rounding toward zero). -/
def trunc_toward_zero (q : ℚ) : Int := q.num.tdiv (q.den : Int)

/-- Conversion of a `float` to a 32-bit `int` (main.c 340): the fractional part is
discarded when the result is representable.  Otherwise the conversion is undefined in C;
the conversion instruction of x86 then yields `INT_MIN`, which the model follows. -/
def float_to_int (q : ℚ) : Int :=
  if -2147483648 ≤ trunc_toward_zero q ∧ trunc_toward_zero q < 2147483648 then
    trunc_toward_zero q
  else -2147483648

/-! ## Input step of the main loop -/

/-- The "Handle input" block of `main` (main.c 129-143), run while the state is
`GAME_RUNNING`.  `get_input` returns the character read, or 0 when nothing is pending;
`0.8f` is the rational 4/5. -/
def main_handle_input (input : Char) (p : Player) : Player :=
  let p1 : Player :=
    if input = ' ' ∧ p.jumps_remaining > 0 then
      { p with
        vel_y := if p.jumps_remaining = 2 then JUMP_FORCE else DOUBLE_JUMP_FORCE
        jumps_remaining := p.jumps_remaining - 1 }
    else p
  let p2 : Player :=
    if input = 'a' then { p1 with vel_x := -MOVE_SPEED, is_facing_right := 0 } else p1
  let p3 : Player :=
    if input = 'd' then { p2 with vel_x := MOVE_SPEED, is_facing_right := 1 } else p2
  if input = Char.ofNat 0 then { p3 with vel_x := p3.vel_x * (4 / 5) } else p3

/-! ## Collectible pool -/

/-- The loop of `spawn_collectible` (main.c 425-434) over the slots in index order: the
first slot with `!is_active` receives all five fields and the loop breaks. -/
def spawn_slots (x y : ℚ) (type_roll : Nat) : List Collectible → List Collectible
  | [] => []
  | c :: cs =>
    if c.is_active = 0 then
      { x := x, y := y, is_active := 1, type := ((type_roll % 2 : Nat) : Int),
        animation_offset := 0 } :: cs
    else c :: spawn_slots x y type_roll cs

/-- Source `spawn_collectible` (main.c 424-435); `type_roll` is the value of `rand()`. -/
def spawn_collectible (g : Game) (x y : ℚ) (type_roll : Nat) : Game :=
  { g with collectibles := spawn_slots x y type_roll g.collectibles }

/-- Number of slots of the pool with `is_active` set. -/
def active_slots (cs : List Collectible) : Nat :=
  cs.countP fun c => decide (c.is_active ≠ 0)

/-- The two branches of a pickup (main.c 445-453).  `score` is a 32-bit `int`, so the
sums are reduced by `wrap32`; `0.5f` is the rational 1/2. -/
def pickup (p : Player) (c : Collectible) : Player :=
  if c.type = 0 then { p with score := wrap32 (p.score + 10) }
  else
    { p with
      score := wrap32 (p.score + 25)
      jumps_remaining := 2
      vel_y := p.vel_y * (1 / 2) }

/-- The player overlaps the box of collectible `c` (the call at main.c 440-443). -/
def touches (p : Player) (c : Collectible) : Bool :=
  check_collision p.x p.y PLAYER_WIDTH PLAYER_HEIGHT c.x c.y COLLECTIBLE_SIZE COLLECTIBLE_SIZE

/-- The loop of `handle_collectible_collision` (main.c 438-458) over the slots in index
order, threading the player through the pickups. -/
def collision_slots : Player → List Collectible → Player × List Collectible
  | p, [] => (p, [])
  | p, c :: cs =>
    if c.is_active ≠ 0 ∧ touches p c = true then
      let r := collision_slots (pickup p c) cs
      (r.1, { c with is_active := 0 } :: r.2)
    else
      let r := collision_slots p cs
      (r.1, c :: r.2)

/-- Source `handle_collectible_collision` (main.c 437-459). -/
def handle_collectible_collision (g : Game) : Game :=
  let r := collision_slots g.player g.collectibles
  { g with player := r.1, collectibles := r.2 }

/-! ## One tick of the simulation -/

/-- Gravity, velocity clamp and Euler step (main.c 276-283). -/
def integrate (p : Player) : Player :=
  let v0 := p.vel_y + GRAVITY
  let v1 := if v0 > MAX_VELOCITY then MAX_VELOCITY else v0
  let v2 := if v1 < -MAX_VELOCITY then -MAX_VELOCITY else v1
  { p with vel_y := v2, x := p.x + p.vel_x, y := p.y + v2 }

/-- Source `update_platforms` (main.c 336-343); `0.05f` is the rational 1/20 and the
sum is stored in the `int` field `x`. -/
def update_platforms (sinf : ℚ → ℚ) (g : Game) : Game :=
  { g with platforms := g.platforms.map fun pl =>
      if pl.is_moving ≠ 0 then
        let movement := sinf ((g.frame_count : ℚ) * (1 / 20)) * pl.move_range
        { pl with x := float_to_int (pl.initial_x + movement) }
      else pl }

/-- Body of the platform loop of `update_game` for one platform (main.c 291-306). -/
def land_on (p : Player) (pl : Platform) : Player :=
  if check_collision p.x p.y PLAYER_WIDTH PLAYER_HEIGHT
      (pl.x : ℚ) (pl.y : ℚ) pl.width PLATFORM_HEIGHT = true then
    if p.vel_y > 0 then
      let p1 : Player :=
        { p with y := ((pl.y - PLAYER_HEIGHT : Int) : ℚ), vel_y := 0, jumps_remaining := 2 }
      if pl.is_moving ≠ 0 then
        { p1 with x := p1.x + pl.move_speed * (if (pl.x : ℚ) > pl.initial_x then -1 else 1) }
      else p1
    else p
  else p

/-- The overlap test of the platform loop (the call at main.c 291-293). -/
def overlaps_platform (p : Player) (pl : Platform) : Bool :=
  check_collision p.x p.y PLAYER_WIDTH PLAYER_HEIGHT
    (pl.x : ℚ) (pl.y : ℚ) pl.width PLATFORM_HEIGHT

/-- Both guards of the landing block (main.c 291-294) hold for the player `p` that an
iteration of the platform loop finds: the block of lines 295-304 runs. -/
def landing_guard (p : Player) (pl : Platform) : Bool :=
  overlaps_platform p pl && decide (p.vel_y > 0)

/-- Source `update_collectibles` (main.c 345-352); `0.1f` is 1/10. -/
def update_collectibles (sinf : ℚ → ℚ) (g : Game) : Game :=
  { g with collectibles := g.collectibles.map fun c =>
      if c.is_active ≠ 0 then
        { c with animation_offset := sinf ((g.frame_count : ℚ) * (1 / 10)) * 5 }
      else c }

/-- The "Screen boundaries" block of `update_game` (main.c 314-326).  The bounds
`xres - PLAYER_WIDTH` and `yres - PLAYER_HEIGHT` are computed in `unsigned int`. -/
def screen_boundaries (s : Surface) (p : Player) : Player :=
  let p1 : Player := if p.x < 0 then { p with x := 0, vel_x := 0 } else p
  let p2 : Player :=
    if p1.x > (toU32 ((s.xres : Int) - PLAYER_WIDTH) : ℚ) then
      { p1 with x := (toU32 ((s.xres : Int) - PLAYER_WIDTH) : ℚ), vel_x := 0 }
    else p1
  if p2.y > (toU32 ((s.yres : Int) - PLAYER_HEIGHT) : ℚ) then
    { p2 with y := (toU32 ((s.yres : Int) - PLAYER_HEIGHT) : ℚ), vel_y := 0,
              jumps_remaining := 2 }
  else p2

/-- The part of `update_game` that precedes the boundary check (main.c 276-311):
integration, platform update, platform loop, collectible update and pickups. -/
def update_game_before_boundaries (sinf : ℚ → ℚ) (g : Game) : Game :=
  let g1 := update_platforms sinf { g with player := integrate g.player }
  let g2 := { g1 with player := g1.platforms.foldl land_on g1.player }
  handle_collectible_collision (update_collectibles sinf g2)

/-- The "Spawn new collectibles occasionally" block of `update_game` (main.c 329-333).
The moduli `xres - COLLECTIBLE_SIZE` and `yres - COLLECTIBLE_SIZE` are `unsigned int`. -/
def spawn_occasionally (d : Draws) (g : Game) : Game :=
  if d.spawn_roll % 120 = 0 then
    spawn_collectible g
      (((d.x_roll : Int) % toU32 ((g.vinfo.xres : Int) - COLLECTIBLE_SIZE) : Int) : ℚ)
      (((d.y_roll : Int) % toU32 ((g.vinfo.yres : Int) - COLLECTIBLE_SIZE) : Int) : ℚ)
      d.type_roll
  else g

/-- Source `update_game` (main.c 274-334). -/
def update_game (sinf : ℚ → ℚ) (d : Draws) (g : Game) : Game :=
  let g1 := update_game_before_boundaries sinf g
  spawn_occasionally d { g1 with player := screen_boundaries g1.vinfo g1.player }

/-- One pass through the body of the `while` loop of `main` (main.c 118-150) on the
simulation state; `none` when the loop is left by `break`.  `draw_game` touches only the
pixel buffers. -/
def main_iteration (sinf : ℚ → ℚ) (d : Draws) (input : Char) (g : Game) : Option Game :=
  if input = 'q' then none
  else if input = 'p' then
    some { g with state :=
      if g.state = GameState.GAME_RUNNING then GameState.GAME_PAUSED
      else GameState.GAME_RUNNING }
  else
    let g1 :=
      if g.state = GameState.GAME_RUNNING then
        update_game sinf d { g with player := main_handle_input input g.player }
      else g
    some { g1 with frame_count := g1.frame_count + 1 }

/-- The loop `while (game.state != GAME_OVER) { ... }` of `main` (main.c 117-151), run on
a finite sequence of polled inputs, each with the draws of its tick.  The result is the
state with which the loop is left (guard false, or `break`), or the state reached when
the inputs are used up. -/
def main_loop (sinf : ℚ → ℚ) : List (Char × Draws) → Game → Game
  | [], g => g
  | ev :: rest, g =>
    if g.state = GameState.GAME_OVER then g
    else
      match main_iteration sinf ev.2 ev.1 g with
      | none => g
      | some g1 => main_loop sinf rest g1

/-! ## Start-up -/

/-- The values of `rand()` that `init_game` uses for one platform, in call order
(main.c 200-206). -/
structure PlatformDraws where
  width_roll : Nat
  x_roll : Nat
  moving_roll : Nat
  speed_roll : Nat
  range_roll : Nat
  deriving DecidableEq, Repr

/-- The values of `rand()` that `init_game` may use for one collectible slot (main.c
212-215, and line 430 inside `spawn_collectible`). -/
structure SlotDraws where
  coin_roll : Nat
  x_roll : Nat
  y_roll : Nat
  type_roll : Nat
  deriving DecidableEq, Repr

/-- Body of the platform loop of `init_game` (main.c 200-206) for index `i`.  The
expressions that involve `xres` / `yres` are computed in `unsigned int` and stored in
`int` fields. -/
def init_platform (s : Surface) (i : Nat) (d : PlatformDraws) : Platform :=
  let width : Int := 80 + ((d.width_roll % 120 : Nat) : Int)
  let x : Int := wrap32 ((d.x_roll : Int) % toU32 ((s.xres : Int) - width))
  { width := width
    x := x
    y := wrap32 (toU32 (100 + toU32 (toU32 ((s.yres : Int) - 200) * (i : Int)) / 13))
    is_moving := if d.moving_roll % 3 = 0 then 1 else 0
    move_speed := ((d.speed_roll % 100 : Nat) : ℚ) / 100 * 4 + 1
    initial_x := (x : ℚ)
    move_range := ((100 + d.range_roll % 100 : Nat) : ℚ) }

/-- Body of the collectible loop of `init_game` (main.c 211-216) for index `i`: the slot
is marked free, then with probability 1/2 a collectible is spawned first-fit. -/
def init_collectible_step (s : Surface) (sd : Nat → SlotDraws) (cs : List Collectible)
    (i : Nat) : List Collectible :=
  let cs1 := cs.modify (fun c => { c with is_active := 0 }) i
  if (sd i).coin_roll % 2 = 0 then
    spawn_slots
      (((((sd i).x_roll : Int) % toU32 ((s.xres : Int) - COLLECTIBLE_SIZE) : Int)) : ℚ)
      (((((sd i).y_roll : Int) % toU32 ((s.yres : Int) - COLLECTIBLE_SIZE) : Int)) : ℚ)
      (sd i).type_roll cs1
  else cs1

/-- Source `init_game` (main.c 159-222) on the simulation state, for a start-up in which
the framebuffer was opened, allocated and mapped (the other paths call `exit(1)`).
`vinfo` is what the `ioctl` calls returned, `mem` the uninitialised content of the
collectible array, `pd` and `sd` the values of `rand()`. -/
def init_game (vinfo : Surface) (mem : List Collectible) (pd : Nat → PlatformDraws)
    (sd : Nat → SlotDraws) : Game :=
  { vinfo := vinfo
    player :=
      { x := ((vinfo.xres / 2 : Nat) : ℚ)
        y := ((vinfo.yres / 2 : Nat) : ℚ)
        vel_x := 0
        vel_y := 0
        jumps_remaining := 2
        score := 0
        is_facing_right := 1 }
    platforms := (List.range MAX_PLATFORMS).map fun i => init_platform vinfo i (pd i)
    collectibles :=
      (List.range MAX_COLLECTIBLES).foldl (init_collectible_step vinfo sd) mem
    state := GameState.GAME_RUNNING
    frame_count := 0 }

/-- The states at the head of the `while` loop of `main`: the state after `init_game`,
and every state produced from such a state by one iteration that the loop guard admits,
for any input and any draws. -/
inductive Reachable (sinf : ℚ → ℚ) : Game → Prop
  | init (vinfo : Surface) (mem : List Collectible) (pd : Nat → PlatformDraws)
      (sd : Nat → SlotDraws) : Reachable sinf (init_game vinfo mem pd sd)
  | step (g g1 : Game) (d : Draws) (input : Char) :
      Reachable sinf g → g.state ≠ GameState.GAME_OVER →
      main_iteration sinf d input g = some g1 → Reachable sinf g1

/-! ## Example states -/

/-- A pool of 20 slots: two active ones followed by 18 free ones. -/
def example_pool : List Collectible :=
  ⟨1, 1, 1, 0, 0⟩ :: ⟨2, 2, 1, 1, 0⟩ :: List.replicate 18 ⟨0, 0, 0, 0, 0⟩

/-- A running game on a 100x100 surface with `example_pool` and one static platform. -/
def example_game : Game :=
  ⟨⟨100, 100, 32, 400⟩, ⟨50, 50, 0, 0, 2, 0, 1⟩, [⟨10, 90, 80, 0, 1, 10, 100⟩],
    example_pool, GameState.GAME_RUNNING, 0⟩

/-- A running game in which the player overlaps exactly the power-up of slot 1. -/
def example_pickup : Game :=
  ⟨⟨200, 200, 32, 800⟩, ⟨50, 50, 0, 6, 0, 40, 1⟩, [],
    [⟨0, 0, 1, 0, 0⟩, ⟨60, 60, 1, 1, 0⟩], GameState.GAME_RUNNING, 0⟩

/-- A falling player (`vel_y = 5`) whose box overlaps both platforms of `example_stack`. -/
def example_faller : Player := ⟨20, 70, 0, 5, 0, 0, 1⟩

/-- Two static platforms, the first at `y = 90`, the second at `y = 85`: a box snapped
onto the first one (`[60, 90)`) still overlaps the second one. -/
def example_stack : List Platform :=
  [⟨10, 90, 80, 0, 1, 10, 100⟩, ⟨10, 85, 80, 0, 1, 10, 100⟩]

/-- A running game whose player rises with `vel_y = -1` just above a static platform: after
gravity the velocity is exactly 0 and the box `[61, 91)` overlaps the platform at 90. -/
def example_apex : Game :=
  ⟨⟨200, 200, 32, 800⟩, ⟨20, 61, 0, -1, 1, 0, 1⟩, [⟨10, 90, 80, 0, 1, 10, 100⟩],
    [], GameState.GAME_RUNNING, 0⟩

/-- A running game whose player rests on the static platform of slot 1 (`y = 90 - 30`);
slot 0 holds a moving platform far above, and the only active coin is out of reach. -/
def example_resting : Game :=
  ⟨⟨200, 200, 32, 800⟩, ⟨50, 60, 0, 0, 2, 0, 1⟩,
    [⟨100, 10, 80, 1, 2, 100, 50⟩, ⟨10, 90, 80, 0, 1, 10, 100⟩],
    [⟨0, 0, 1, 0, 0⟩], GameState.GAME_RUNNING, 7⟩

/-- A running game whose player, with a score of 2147483640, overlaps exactly the coin of
slot 0. -/
def example_high_score : Game :=
  ⟨⟨200, 200, 32, 800⟩, ⟨50, 50, 0, 6, 1, 2147483640, 1⟩, [],
    [⟨60, 60, 1, 0, 0⟩], GameState.GAME_RUNNING, 0⟩

/-- A running game at frame 10 whose player rests on the static platform of slot 1
(`y = 121 - 30`).  The moving platform of slot 0 is at `x = 150`, clear of the player,
but its anchor is 50 and its range 100. -/
def example_slide : Game :=
  ⟨⟨200, 200, 32, 800⟩, ⟨85, 91, 0, 0, 2, 0, 1⟩,
    [⟨150, 100, 80, 1, 2, 50, 100⟩, ⟨50, 121, 100, 0, 1, 50, 100⟩],
    [], GameState.GAME_RUNNING, 10⟩

/-- The game `example_slide` with the moving platform of slot 0 at the height of the
platform the player rests on (`y = 121`). -/
def example_level : Game :=
  ⟨⟨200, 200, 32, 800⟩, ⟨85, 91, 0, 0, 2, 0, 1⟩,
    [⟨150, 121, 80, 1, 2, 50, 100⟩, ⟨50, 121, 100, 0, 1, 50, 100⟩],
    [], GameState.GAME_RUNNING, 10⟩

/-! ## Theorems -/

/-- C1: `check_collision` is symmetric in its two boxes, and its result is exactly the
conjunction `x1 < x2+w2 && x1+w1 > x2 && y1 < y2+h2 && y1+h1 > y2`.  The carrier of the
coordinates is arbitrary (only `<` and `+` are used), so the statement covers rounded
floating-point addition as well as exact rationals. -/
theorem check_collision_symm {F : Type} [LT F] [Add F] [IntCast F]
    [DecidableRel ((· < ·) : F → F → Prop)]
    (x1 y1 : F) (w1 h1 : Int) (x2 y2 : F) (w2 h2 : Int) :
    check_collision x1 y1 w1 h1 x2 y2 w2 h2 = check_collision x2 y2 w2 h2 x1 y1 w1 h1 ∧
    (check_collision x1 y1 w1 h1 x2 y2 w2 h2 = true ↔
      x1 < x2 + (w2 : F) ∧ x1 + (w1 : F) > x2 ∧ y1 < y2 + (h2 : F) ∧ y1 + (h1 : F) > y2) := by
  constructor
  · unfold check_collision
    simp only [gt_iff_lt]
    cases decide (x1 < x2 + (w2 : F)) <;> cases decide (x2 < x1 + (w1 : F)) <;>
      cases decide (y1 < y2 + (h2 : F)) <;> cases decide (y2 < y1 + (h1 : F)) <;> rfl
  · unfold check_collision
    simp only [Bool.and_eq_true, decide_eq_true_eq, and_assoc]

/-! ### Machine-integer lemmas -/

theorem wrap32_isInt (n : Int) : isInt (wrap32 n) := by
  unfold wrap32
  constructor <;> omega

theorem wrap32_eq_self {n : Int} (h : isInt n) : wrap32 n = n := by
  obtain ⟨h1, h2⟩ := h
  unfold wrap32
  omega

theorem toU32_eq_self {n : Int} (h0 : 0 ≤ n) (h1 : n < 4294967296) : toU32 n = n := by
  unfold toU32
  omega

theorem toU32_neg {n : Int} (h0 : n < 0) (h1 : -2147483648 ≤ n) :
    toU32 n = n + 4294967296 := by
  unfold toU32
  omega

/-! ### Loop lemmas -/

/-- Every write of a loop comes from an iteration whose index is a 32-bit value that
passed the loop condition. -/
theorem mem_for_loop_elim {cond : Int → Bool} {body : Int → List PixelWrite}
    {p : PixelWrite} :
    ∀ (fuel : Nat) (start : Int), isInt start → p ∈ for_loop cond body fuel start →
      ∃ i, isInt i ∧ cond i = true ∧ p ∈ body i := by
  intro fuel
  induction fuel with
  | zero => intro start _ h; simp [for_loop] at h
  | succ n ih =>
    intro start hs h
    unfold for_loop at h
    by_cases hc : cond start = true
    · rw [if_pos hc, List.mem_append] at h
      rcases h with h | h
      · exact ⟨start, hs, hc, h⟩
      · exact ih _ (wrap32_isInt _) h
    · rw [if_neg hc] at h
      simp at h

/-- A loop `for (i = lo; i <= hi; i++)` with `hi < INT_MAX` and enough fuel performs the
writes of exactly the iterations `lo ≤ i ≤ hi`. -/
theorem mem_for_loop_le {body : Int → List PixelWrite} {p : PixelWrite} {hi : Int}
    (hhi : hi < 2147483647) :
    ∀ (fuel : Nat) (lo : Int), -2147483648 ≤ lo → hi + 1 - lo ≤ fuel →
      (p ∈ for_loop (fun i => decide (i ≤ hi)) body fuel lo ↔
        ∃ i, lo ≤ i ∧ i ≤ hi ∧ p ∈ body i) := by
  intro fuel
  induction fuel with
  | zero =>
    intro lo _ hf
    simp only [for_loop, List.not_mem_nil, false_iff]
    rintro ⟨i, h1, h2, _⟩
    simp at hf
    omega
  | succ n ih =>
    intro lo hlo hf
    unfold for_loop
    by_cases hc : lo ≤ hi
    · have hw : wrap32 (lo + 1) = lo + 1 := wrap32_eq_self ⟨by omega, by omega⟩
      simp only [hc, decide_True, if_true, List.mem_append, hw]
      rw [ih (lo + 1) (by omega) (by push_cast at hf; omega)]
      constructor
      · rintro (h | ⟨i, h1, h2, h3⟩)
        · exact ⟨lo, le_refl _, hc, h⟩
        · exact ⟨i, by omega, h2, h3⟩
      · rintro ⟨i, h1, h2, h3⟩
        by_cases hi0 : i = lo
        · left; rw [← hi0]; exact h3
        · right; exact ⟨i, by omega, h2, h3⟩
    · simp only [hc, decide_False, Bool.false_eq_true, if_false, List.not_mem_nil, false_iff]
      rintro ⟨i, h1, h2, _⟩
      omega

/-- More fuel than the distance to an upper bound implied by the condition does not
change a loop: the model of `draw_rect` does not depend on its fuel. -/
theorem for_loop_fuel_enough {cond : Int → Bool} {body : Int → List PixelWrite} {hi : Int}
    (hc : ∀ i, cond i = true → i < hi) (hhi : hi < 2147483648) :
    ∀ (extra fuel : Nat) (start : Int), -2147483648 ≤ start → hi - start ≤ fuel →
      for_loop cond body (fuel + extra) start = for_loop cond body fuel start := by
  intro extra fuel
  induction fuel with
  | zero =>
    intro start _ hf
    cases extra with
    | zero => rfl
    | succ e =>
      have hne : cond start ≠ true := fun h => by have := hc _ h; simp at hf; omega
      simp [for_loop, hne]
  | succ n ih =>
    intro start hs hf
    rw [Nat.add_right_comm]
    unfold for_loop
    by_cases h : cond start = true
    · have hlt := hc _ h
      have hw : wrap32 (start + 1) = start + 1 := wrap32_eq_self ⟨by omega, by omega⟩
      rw [if_pos h, if_pos h, hw, ih (start + 1) (by omega) (by push_cast at hf; omega)]
    · rw [if_neg h, if_neg h]

/-- A loop `for (i = lo; i < hi && i < N; i++)` started at `lo ≥ 0`, with `N` unsigned,
performs the writes of exactly the iterations `lo ≤ i < min hi N`. -/
theorem mem_for_loop_lt {body : Int → List PixelWrite} {p : PixelWrite} {hi : Int} {N : Nat}
    (hhi : hi < 2147483648) :
    ∀ (fuel : Nat) (lo : Int), 0 ≤ lo → hi - lo ≤ fuel →
      (p ∈ for_loop (fun i => decide (i < hi) && decide (toU32 i < (N : Int))) body fuel lo ↔
        ∃ i, lo ≤ i ∧ i < hi ∧ i < (N : Int) ∧ p ∈ body i) := by
  intro fuel
  induction fuel with
  | zero =>
    intro lo _ hf
    simp only [for_loop, List.not_mem_nil, false_iff]
    rintro ⟨i, h1, h2, _⟩
    simp at hf
    omega
  | succ n ih =>
    intro lo hlo hf
    unfold for_loop
    by_cases hc : lo < hi ∧ lo < (N : Int)
    · have hu : toU32 lo = lo := toU32_eq_self hlo (by omega)
      have hw : wrap32 (lo + 1) = lo + 1 := wrap32_eq_self ⟨by omega, by omega⟩
      have hcond : (decide (lo < hi) && decide (toU32 lo < (N : Int))) = true := by
        rw [hu]; simp [hc.1, hc.2]
      rw [if_pos hcond, List.mem_append, hw,
        ih (lo + 1) (by omega) (by push_cast at hf; omega)]
      constructor
      · rintro (h | ⟨i, h1, h2, h3, h4⟩)
        · exact ⟨lo, le_refl _, hc.1, hc.2, h⟩
        · exact ⟨i, by omega, h2, h3, h4⟩
      · rintro ⟨i, h1, h2, h3, h4⟩
        by_cases hi0 : i = lo
        · left; rw [← hi0]; exact h4
        · right; exact ⟨i, by omega, h2, h3, h4⟩
    · have hcond : ¬ ((decide (lo < hi) && decide (toU32 lo < (N : Int))) = true) := by
        by_cases hl : lo < hi
        · have hu : toU32 lo = lo := toU32_eq_self hlo (by omega)
          rw [hu]
          simp only [Bool.and_eq_true, decide_eq_true_eq]
          exact hc
        · simp [hl]
      rw [if_neg hcond]
      simp only [List.not_mem_nil, false_iff]
      rintro ⟨i, h1, h2, h3, _⟩
      exact hc ⟨by omega, by omega⟩

/-! ### Rasterizer -/

/-- C2: clipping invariant.  For all 32-bit origins and arbitrary sizes (negative or
larger than the surface included), every pixel store performed by `draw_rect` and every
pixel store performed by `draw_circle` has `0 ≤ x < xres` and `0 ≤ y < yres`. -/
theorem draw_writes_in_bounds (s : Surface) (x y width height cx cy radius : Int)
    (color : Nat) (hx : isInt x) (hy : isInt y) (p : PixelWrite)
    (hp : p ∈ draw_rect s x y width height color ∨ p ∈ draw_circle s cx cy radius color) :
    0 ≤ p.x ∧ p.x < (s.xres : Int) ∧ 0 ≤ p.y ∧ p.y < (s.yres : Int) := by
  rcases hp with hp | hp
  · obtain ⟨i, hi, hci, hp⟩ := mem_for_loop_elim _ _ hy hp
    obtain ⟨j, hj, hcj, hp⟩ := mem_for_loop_elim _ _ hx hp
    simp only [Bool.and_eq_true, decide_eq_true_eq] at hci hcj
    by_cases hg : i ≥ 0 ∧ j ≥ 0
    · rw [if_pos hg, List.mem_singleton] at hp
      subst hp
      have h1 := toU32_eq_self hg.1 (by have := hi.2; omega)
      have h2 := toU32_eq_self hg.2 (by have := hj.2; omega)
      rw [h1] at hci
      rw [h2] at hcj
      exact ⟨hg.2, hcj.2, hg.1, hci.2⟩
    · rw [if_neg hg] at hp
      simp at hp
  · obtain ⟨i, _, _, hp⟩ := mem_for_loop_elim _ _ (wrap32_isInt _) hp
    obtain ⟨j, _, _, hp⟩ := mem_for_loop_elim _ _ (wrap32_isInt _) hp
    split at hp
    · simp only at hp
      split at hp
      · rename_i hg
        rw [List.mem_singleton] at hp
        subst hp
        obtain ⟨g1, g2, g3, g4⟩ := hg
        have hxi := wrap32_isInt (cx + j)
        have hyi := wrap32_isInt (cy + i)
        rw [toU32_eq_self g1 (by have := hxi.2; omega)] at g2
        rw [toU32_eq_self g3 (by have := hyi.2; omega)] at g4
        exact ⟨g1, g2, g3, g4⟩
      · simp at hp
    · simp at hp

/-- Witness for C2 on a 3x3 surface: a rectangle and a disc that both leave the surface. -/
theorem draw_writes_in_bounds_witness :
    (⟨2, 2, 7⟩ : PixelWrite) ∈ draw_rect ⟨3, 3, 32, 12⟩ 1 1 5 5 7 ∧
    (0 : Int) ≤ 2 ∧ (2 : Int) < ((3 : Nat) : Int) ∧ (0 : Int) ≤ 2 ∧ (2 : Int) < ((3 : Nat) : Int) :=
  ⟨by decide,
   draw_writes_in_bounds ⟨3, 3, 32, 12⟩ 1 1 5 5 0 0 1 7 (by decide) (by decide) ⟨2, 2, 7⟩
     (Or.inl (by decide))⟩

/-- C3 (fails on the code): on a 100x100 surface `draw_rect(-5, 0, 10, 10, 0xFF0000)`
performs no store at all, although the pixel (0,0) lies in the rectangle
(`-5 ≤ 0 < -5+10`, `0 ≤ 0 < 0+10`) and on the surface: the loop condition `j < xres`
converts `j = -5` to `4294967291`, so the inner loop ends before its first iteration. -/
theorem draw_rect_negative_origin_writes_nothing :
    draw_rect ⟨100, 100, 32, 400⟩ (-5) 0 10 10 16711680 = [] ∧
    ((-5 : Int) ≤ 0 ∧ (0 : Int) < -5 + 10 ∧ (0 : Int) ≤ 0 ∧ (0 : Int) < 0 + 10 ∧
      (0 : Int) ≤ 0 ∧ (0 : Int) < ((100 : Nat) : Int)) := by
  decide

theorem for_loop_nil {cond : Int → Bool} {body : Int → List PixelWrite}
    (hb : ∀ i, cond i = true → body i = []) :
    ∀ (fuel : Nat) (start : Int), for_loop cond body fuel start = [] := by
  intro fuel
  induction fuel with
  | zero => intro start; rfl
  | succ n ih =>
    intro start
    unfold for_loop
    by_cases h : cond start = true
    · rw [if_pos h, hb _ h, ih]; rfl
    · rw [if_neg h]

theorem for_loop_cond_false {cond : Int → Bool} {body : Int → List PixelWrite}
    (fuel : Nat) {start : Int} (h : cond start = false) :
    for_loop cond body fuel start = [] := by
  cases fuel with
  | zero => rfl
  | succ n => simp [for_loop, h]

/-- The defect behind C3 in general: on a surface of at most 2^31 columns and rows, a
rectangle whose origin has a negative coordinate is not drawn at all. -/
theorem draw_rect_negative_origin (s : Surface) (x y width height : Int) (color : Nat)
    (hx : isInt x) (hy : isInt y) (hW : (s.xres : Int) ≤ 2147483648)
    (hH : (s.yres : Int) ≤ 2147483648) (hneg : x < 0 ∨ y < 0) :
    draw_rect s x y width height color = [] := by
  unfold draw_rect
  by_cases hyn : y < 0
  · apply for_loop_cond_false
    have hu := toU32_neg hyn hy.1
    have : ¬ toU32 y < (s.yres : Int) := by rw [hu]; omega
    simp [this]
  · have hxn : x < 0 := by omega
    apply for_loop_nil
    intro i _
    apply for_loop_cond_false
    have hu := toU32_neg hxn hx.1
    have : ¬ toU32 x < (s.xres : Int) := by rw [hu]; omega
    simp [this]

theorem mul_self_le_of_abs_le {i r : Int} (h1 : -r ≤ i) (h2 : i ≤ r) : i * i ≤ r * r := by
  nlinarith [mul_nonneg (sub_nonneg.mpr h2) (by linarith : (0 : Int) ≤ i + r)]

theorem abs_le_of_mul_self_le {i r : Int} (hr : 0 ≤ r) (h : i * i ≤ r * r) :
    -r ≤ i ∧ i ≤ r := by
  constructor
  · by_contra hc
    push_neg at hc
    nlinarith
  · by_contra hc
    push_neg at hc
    nlinarith

/-- C4 (as stated, fails on the code): with radius 32768 and centre (-32768,-32768) the
pixel (0,0) of a 1x1 surface is stored, although its squared distance to the centre,
2 * 32768^2, exceeds 32768^2: the sum `i*i + j*j` overflows the 32-bit `int` for
`i = j = 32768`. -/
theorem draw_circle_overflow_counterexample :
    (0 : Int) ≤ 32768 ∧
    (⟨0, 0, 16776960⟩ : PixelWrite) ∈
      draw_circle ⟨1, 1, 32, 4⟩ (-32768) (-32768) 32768 16776960 ∧
    ¬ (((0 : Int) - (-32768)) ^ 2 + ((0 : Int) - (-32768)) ^ 2 ≤ (32768 : Int) ^ 2) := by
  refine ⟨by decide, ?_, by decide⟩
  unfold draw_circle
  have hw : wrap32 (-32768) = -32768 := by decide
  rw [hw]
  rw [mem_for_loop_le (by decide) _ _ (by decide) (by decide)]
  refine ⟨32768, by decide, by decide, ?_⟩
  rw [mem_for_loop_le (by decide) _ _ (by decide) (by decide)]
  exact ⟨32768, by decide, by decide, by decide⟩

/-- C4 (amended): for `0 ≤ r ≤ 32767`, on a surface of at most `2^31 - 32768` columns
and rows, and for every 32-bit centre (negative and off-surface centres included),
`draw_circle` stores `color` at exactly the pixels with `(px-cx)^2 + (py-cy)^2 ≤ r^2`,
`0 ≤ px < xres`, `0 ≤ py < yres`, and performs no other store. -/
theorem draw_circle_exact (s : Surface) (cx cy r : Int) (color : Nat)
    (hr0 : 0 ≤ r) (hr : r ≤ 32767) (hcx : isInt cx) (hcy : isInt cy)
    (hW : (s.xres : Int) ≤ 2147450880) (hH : (s.yres : Int) ≤ 2147450880)
    (p : PixelWrite) :
    p ∈ draw_circle s cx cy r color ↔
      p.color = color ∧ (p.x - cx) ^ 2 + (p.y - cy) ^ 2 ≤ r ^ 2 ∧
      0 ≤ p.x ∧ p.x < (s.xres : Int) ∧ 0 ≤ p.y ∧ p.y < (s.yres : Int) := by
  obtain ⟨hcx1, hcx2⟩ := hcx
  obtain ⟨hcy1, hcy2⟩ := hcy
  unfold draw_circle
  have hw : wrap32 (-r) = -r := wrap32_eq_self ⟨by omega, by omega⟩
  rw [hw]
  have hfuel : r + 1 - -r ≤ ((r - -r + 1).toNat : Int) := by
    rw [Int.toNat_of_nonneg (by omega)]; omega
  rw [mem_for_loop_le (by omega) _ _ (by omega) hfuel]
  have hrr : r * r ≤ 1073676289 := by nlinarith
  have hrr0 : 0 ≤ r * r := mul_self_nonneg r
  constructor
  · rintro ⟨i, hi1, hi2, hp⟩
    rw [mem_for_loop_le (by omega) _ _ (by omega) hfuel] at hp
    obtain ⟨j, hj1, hj2, hp⟩ := hp
    have hii := mul_self_le_of_abs_le hi1 hi2
    have hjj := mul_self_le_of_abs_le hj1 hj2
    have hii0 := mul_self_nonneg i
    have hjj0 := mul_self_nonneg j
    rw [wrap32_eq_self (n := i * i) ⟨by omega, by omega⟩,
      wrap32_eq_self (n := j * j) ⟨by omega, by omega⟩,
      wrap32_eq_self (n := i * i + j * j) ⟨by omega, by omega⟩,
      wrap32_eq_self (n := r * r) ⟨by omega, by omega⟩] at hp
    split at hp
    · rename_i hd
      simp only at hp
      split at hp
      · rename_i hg
        rw [List.mem_singleton] at hp
        subst hp
        obtain ⟨g1, g2, g3, g4⟩ := hg
        have hxi := wrap32_isInt (cx + j)
        have hyi := wrap32_isInt (cy + i)
        rw [toU32_eq_self g1 (by have := hxi.2; omega)] at g2
        rw [toU32_eq_self g3 (by have := hyi.2; omega)] at g4
        -- a store on the surface cannot come from a wrapped coordinate
        have ex : wrap32 (cx + j) = cx + j := by
          unfold wrap32 at g1 g2 ⊢
          omega
        have ey : wrap32 (cy + i) = cy + i := by
          unfold wrap32 at g3 g4 ⊢
          omega
        refine ⟨rfl, ?_, g1, g2, g3, g4⟩
        simp only [ex, ey, add_sub_cancel_left]
        nlinarith
      · simp at hp
    · simp at hp
  · rintro ⟨hc, hd, g1, g2, g3, g4⟩
    have hd2 : (p.y - cy) * (p.y - cy) + (p.x - cx) * (p.x - cx) ≤ r * r := by nlinarith
    have hjj0 := mul_self_nonneg (p.x - cx)
    have hii0 := mul_self_nonneg (p.y - cy)
    obtain ⟨hi1, hi2⟩ := abs_le_of_mul_self_le (i := p.y - cy) hr0 (by omega)
    obtain ⟨hj1, hj2⟩ := abs_le_of_mul_self_le (i := p.x - cx) hr0 (by omega)
    refine ⟨p.y - cy, hi1, hi2, ?_⟩
    rw [mem_for_loop_le (by omega) _ _ (by omega) hfuel]
    refine ⟨p.x - cx, hj1, hj2, ?_⟩
    have e1 : cx + (p.x - cx) = p.x := by ring
    have e2 : cy + (p.y - cy) = p.y := by ring
    rw [wrap32_eq_self (n := (p.y - cy) * (p.y - cy)) ⟨by omega, by omega⟩,
      wrap32_eq_self (n := (p.x - cx) * (p.x - cx)) ⟨by omega, by omega⟩,
      wrap32_eq_self
        (n := (p.y - cy) * (p.y - cy) + (p.x - cx) * (p.x - cx)) ⟨by omega, by omega⟩,
      wrap32_eq_self (n := r * r) ⟨by omega, by omega⟩, e1, e2,
      wrap32_eq_self (n := p.x) ⟨by omega, by omega⟩,
      wrap32_eq_self (n := p.y) ⟨by omega, by omega⟩,
      if_pos hd2]
    simp only
    rw [toU32_eq_self g1 (by omega), toU32_eq_self g3 (by omega),
      if_pos ⟨g1, g2, g3, g4⟩, List.mem_singleton]
    cases p
    simp only at hc
    simp [hc]

/-- Witness for the amended C4: centre (-1,0) left of a 3x3 surface, radius 2. -/
theorem draw_circle_exact_witness :
    (0 : Int) ≤ 2 ∧ (2 : Int) ≤ 32767 ∧ isInt (-1) ∧
    ((⟨0, 1, 7⟩ : PixelWrite) ∈ draw_circle ⟨3, 3, 32, 12⟩ (-1) 0 2 7 ↔
      (7 : Nat) = 7 ∧ ((0 : Int) - (-1)) ^ 2 + ((1 : Int) - 0) ^ 2 ≤ (2 : Int) ^ 2 ∧
      (0 : Int) ≤ 0 ∧ (0 : Int) < ((3 : Nat) : Int) ∧
      (0 : Int) ≤ 1 ∧ (1 : Int) < ((3 : Nat) : Int)) :=
  ⟨by decide, by decide, by decide,
   draw_circle_exact ⟨3, 3, 32, 12⟩ (-1) 0 2 7 (by decide) (by decide) (by decide)
     (by decide) (by decide) (by decide) ⟨0, 1, 7⟩⟩

/-! ### Input step -/

/-- C5: jump accounting.  A jump input with two charges sets `vel_y` to `JUMP_FORCE`
(-12) and leaves one charge; with one charge it sets `vel_y` to `DOUBLE_JUMP_FORCE` (-10)
and leaves none; with no charge it changes nothing.  Hence, from two charges, two jump
inputs leave no charge and a third one has no effect on the velocity. -/
theorem jump_accounting (p : Player) :
    (p.jumps_remaining = 2 →
      (main_handle_input ' ' p).vel_y = -12 ∧
      (main_handle_input ' ' p).jumps_remaining = 1) ∧
    (p.jumps_remaining = 1 →
      (main_handle_input ' ' p).vel_y = -10 ∧
      (main_handle_input ' ' p).jumps_remaining = 0) ∧
    (p.jumps_remaining = 0 → main_handle_input ' ' p = p) ∧
    (p.jumps_remaining = 2 →
      (main_handle_input ' ' (main_handle_input ' ' p)).jumps_remaining = 0 ∧
      main_handle_input ' ' (main_handle_input ' ' (main_handle_input ' ' p)) =
        main_handle_input ' ' (main_handle_input ' ' p)) := by
  have hA : ¬ (' ' = 'a') := by decide
  have hD : ¬ (' ' = 'd') := by decide
  have h0 : ¬ (' ' = Char.ofNat 0) := by decide
  refine ⟨?_, ?_, ?_, ?_⟩
  · intro h
    simp [main_handle_input, h, hA, hD, h0, JUMP_FORCE]
  · intro h
    simp [main_handle_input, h, hA, hD, h0, DOUBLE_JUMP_FORCE]
  · intro h
    simp [main_handle_input, h, hA, hD, h0]
  · intro h
    simp [main_handle_input, h, hA, hD, h0]

/-- Witness for C5: a player in mid-air with both charges. -/
theorem jump_accounting_witness :
    (main_handle_input ' ' ⟨0, 0, 0, 3, 2, 0, 1⟩).vel_y = -12 ∧
    (main_handle_input ' ' ⟨0, 0, 0, 3, 2, 0, 1⟩).jumps_remaining = 1 :=
  (jump_accounting ⟨0, 0, 0, 3, 2, 0, 1⟩).1 rfl

/-- C10 (as stated, fails on the code): a jump key with `vel_x = 20` leaves `vel_x` at
20; it is not multiplied by 0.8. -/
theorem friction_jump_key_counterexample :
    (main_handle_input ' ' ⟨0, 0, 20, 0, 2, 0, 1⟩).vel_x = 20 ∧
    (main_handle_input ' ' ⟨0, 0, 20, 0, 2, 0, 1⟩).vel_x ≠ 20 * (4 / 5) := by
  have hA : ¬ (' ' = 'a') := by decide
  have hD : ¬ (' ' = 'd') := by decide
  have h0 : ¬ (' ' = Char.ofNat 0) := by decide
  constructor
  · simp [main_handle_input, hA, hD, h0]
  · simp [main_handle_input, hA, hD, h0]
    norm_num

/-- C10 (amended): the input step multiplies `vel_x` by 0.8 exactly when no key is
pending (`get_input` returned 0), so that `vel_x = 20` becomes 16; 'a' and 'd' set
`vel_x` to `-MOVE_SPEED` and `+MOVE_SPEED`; every other character, the jump key
included, leaves `vel_x` unchanged. -/
theorem friction_only_without_input (input : Char) (p : Player) :
    (input = Char.ofNat 0 →
      (main_handle_input input p).vel_x = p.vel_x * (4 / 5) ∧
      (p.vel_x = 20 → (main_handle_input input p).vel_x = 16)) ∧
    (input = 'a' → (main_handle_input input p).vel_x = -MOVE_SPEED) ∧
    (input = 'd' → (main_handle_input input p).vel_x = MOVE_SPEED) ∧
    (input ≠ Char.ofNat 0 → input ≠ 'a' → input ≠ 'd' →
      (main_handle_input input p).vel_x = p.vel_x) := by
  refine ⟨?_, ?_, ?_, ?_⟩
  · intro h
    subst h
    have h1 : ¬ (Char.ofNat 0 = ' ') := by decide
    have h2 : ¬ (Char.ofNat 0 = 'a') := by decide
    have h3 : ¬ (Char.ofNat 0 = 'd') := by decide
    have e : (main_handle_input (Char.ofNat 0) p).vel_x = p.vel_x * (4 / 5) := by
      simp [main_handle_input, h1, h2, h3]
    refine ⟨e, fun hv => ?_⟩
    rw [e, hv]
    norm_num
  · intro h
    subst h
    have h1 : ¬ ('a' = 'd') := by decide
    have h2 : ¬ ('a' = Char.ofNat 0) := by decide
    simp [main_handle_input, h1, h2]
  · intro h
    subst h
    have h2 : ¬ ('d' = Char.ofNat 0) := by decide
    simp [main_handle_input, h2]
  · intro h0 hA hD
    unfold main_handle_input
    simp only [hA, hD, h0, if_false]
    split <;> rfl

/-- Witness for the amended C10: no key pending, `vel_x = 20` becomes 16. -/
theorem friction_only_without_input_witness :
    (main_handle_input (Char.ofNat 0) ⟨0, 0, 20, 0, 2, 0, 1⟩).vel_x = 16 :=
  ((friction_only_without_input (Char.ofNat 0) ⟨0, 0, 20, 0, 2, 0, 1⟩).1 rfl).2 rfl

/-! ### Collectible pool -/

theorem spawn_slots_full (x y : ℚ) (r : Nat) :
    ∀ cs : List Collectible, (∀ c ∈ cs, c.is_active ≠ 0) → spawn_slots x y r cs = cs := by
  intro cs
  induction cs with
  | nil => intro _; rfl
  | cons c cs ih =>
    intro h
    have hc : c.is_active ≠ 0 := h c (List.mem_cons_self _ _)
    simp only [spawn_slots, hc, if_false]
    rw [ih (fun c' hc' => h c' (List.mem_cons_of_mem _ hc'))]

/-- C7: spawning into a full pool is a silent no-op.  When every slot is active (in
particular all 20 of them), `spawn_collectible` returns the state it was given, for every
position and every value of `rand()`. -/
theorem spawn_full_pool_noop (g : Game) (x y : ℚ) (type_roll : Nat)
    (hfull : ∀ c ∈ g.collectibles, c.is_active ≠ 0) :
    spawn_collectible g x y type_roll = g := by
  unfold spawn_collectible
  rw [spawn_slots_full x y type_roll _ hfull]

/-- Witness for C7: a pool of 20 active coins. -/
theorem spawn_full_pool_noop_witness :
    (List.replicate 20 (⟨5, 5, 1, 0, 0⟩ : Collectible)).length = MAX_COLLECTIBLES ∧
    spawn_collectible
        ⟨⟨100, 100, 32, 400⟩, ⟨0, 0, 0, 0, 2, 0, 1⟩, [],
          List.replicate 20 ⟨5, 5, 1, 0, 0⟩, GameState.GAME_RUNNING, 0⟩ 7 9 1 =
      ⟨⟨100, 100, 32, 400⟩, ⟨0, 0, 0, 0, 2, 0, 1⟩, [],
          List.replicate 20 ⟨5, 5, 1, 0, 0⟩, GameState.GAME_RUNNING, 0⟩ :=
  ⟨by decide,
   spawn_full_pool_noop _ 7 9 1 (fun c hc => by
     rw [List.eq_of_mem_replicate hc]
     decide)⟩

theorem spawn_slots_first_fit (x y : ℚ) (r : Nat) :
    ∀ cs : List Collectible, (∃ c ∈ cs, c.is_active = 0) →
      ∃ k, k < cs.length ∧
        (∀ i c, i < k → cs[i]? = some c → c.is_active ≠ 0) ∧
        (∃ c, cs[k]? = some c ∧ c.is_active = 0) ∧
        spawn_slots x y r cs = cs.set k ⟨x, y, 1, ((r % 2 : Nat) : Int), 0⟩ ∧
        active_slots (spawn_slots x y r cs) = active_slots cs + 1 := by
  intro cs
  induction cs with
  | nil => rintro ⟨c, hc, _⟩; simp at hc
  | cons c cs ih =>
    intro hex
    by_cases hc : c.is_active = 0
    · refine ⟨0, by simp, ?_, ⟨c, by simp, hc⟩, ?_, ?_⟩
      · intro i c' hi; omega
      · simp [spawn_slots, hc]
      · simp [spawn_slots, hc, active_slots]
    · have hex' : ∃ c' ∈ cs, c'.is_active = 0 := by
        obtain ⟨c', hm, h0⟩ := hex
        rcases List.mem_cons.mp hm with h | h
        · subst h; exact absurd h0 hc
        · exact ⟨c', h, h0⟩
      obtain ⟨k, hk, hlow, hkin, hset, hcnt⟩ := ih hex'
      refine ⟨k + 1, by simp; omega, ?_, ?_, ?_, ?_⟩
      · intro i c' hi hget
        cases i with
        | zero =>
          simp at hget
          subst hget
          exact hc
        | succ j =>
          simp at hget
          exact hlow j c' (by omega) hget
      · simpa using hkin
      · simp [spawn_slots, hc, hset]
      · have e : spawn_slots x y r (c :: cs) = c :: spawn_slots x y r cs := by
          simp [spawn_slots, hc]
        rw [e]
        unfold active_slots at hcnt ⊢
        rw [List.countP_cons, List.countP_cons, hcnt]
        ring

/-- C8: first-fit allocation.  When the 20-slot pool has an inactive slot,
`spawn_collectible` overwrites exactly the lowest-index inactive slot `k` with position
`(x,y)`, `is_active = 1`, `animation_offset = 0` and a type that is 0 or 1; every other
slot, the player and the rest of the state are unchanged; the number of active slots
grows by exactly one and does not exceed 20. -/
theorem spawn_first_fit (g : Game) (x y : ℚ) (type_roll : Nat)
    (hlen : g.collectibles.length = MAX_COLLECTIBLES)
    (hfree : ∃ c ∈ g.collectibles, c.is_active = 0) :
    ∃ k, k < MAX_COLLECTIBLES ∧
      (∀ i c, i < k → g.collectibles[i]? = some c → c.is_active ≠ 0) ∧
      (∃ c, g.collectibles[k]? = some c ∧ c.is_active = 0) ∧
      (spawn_collectible g x y type_roll).collectibles =
        g.collectibles.set k ⟨x, y, 1, ((type_roll % 2 : Nat) : Int), 0⟩ ∧
      (type_roll % 2 = 0 ∨ type_roll % 2 = 1) ∧
      (spawn_collectible g x y type_roll).player = g.player ∧
      (spawn_collectible g x y type_roll).platforms = g.platforms ∧
      (spawn_collectible g x y type_roll).state = g.state ∧
      (spawn_collectible g x y type_roll).frame_count = g.frame_count ∧
      (spawn_collectible g x y type_roll).vinfo = g.vinfo ∧
      active_slots (spawn_collectible g x y type_roll).collectibles =
        active_slots g.collectibles + 1 ∧
      active_slots (spawn_collectible g x y type_roll).collectibles ≤ MAX_COLLECTIBLES := by
  obtain ⟨k, hk, hlow, hkin, hset, hcnt⟩ :=
    spawn_slots_first_fit x y type_roll g.collectibles hfree
  refine ⟨k, by rw [← hlen]; exact hk, hlow, hkin, hset, by omega, rfl, rfl, rfl, rfl, rfl,
    hcnt, ?_⟩
  have h1 : active_slots (spawn_collectible g x y type_roll).collectibles ≤
      (spawn_collectible g x y type_roll).collectibles.length := List.countP_le_length _
  have h2 : (spawn_collectible g x y type_roll).collectibles.length = MAX_COLLECTIBLES := by
    show (spawn_slots x y type_roll g.collectibles).length = MAX_COLLECTIBLES
    rw [hset, List.length_set, hlen]
  omega

/-- Witness for C8: in `example_game` slots 0 and 1 are active, so slot 2 is taken. -/
theorem spawn_first_fit_witness :
    example_game.collectibles.length = MAX_COLLECTIBLES ∧
    ∃ k, k < MAX_COLLECTIBLES ∧
      (spawn_collectible example_game 7 9 3).collectibles =
        example_game.collectibles.set k ⟨7, 9, 1, ((3 % 2 : Nat) : Int), 0⟩ :=
  ⟨by decide,
   (spawn_first_fit example_game 7 9 3 (by decide)
      ⟨⟨0, 0, 0, 0, 0⟩,
        List.mem_cons_of_mem _ (List.mem_cons_of_mem _
          (List.mem_replicate.mpr ⟨by decide, rfl⟩)), rfl⟩).imp
     fun _ h => ⟨h.1, h.2.2.2.1⟩⟩

theorem touches_pickup (p : Player) (c c' : Collectible) :
    touches (pickup p c) c' = touches p c' := by
  unfold touches pickup
  split <;> rfl

theorem collision_slots_none :
    ∀ (cs : List Collectible) (p q : Player), (∀ c, touches q c = touches p c) →
      (∀ c ∈ cs, ¬ (c.is_active ≠ 0 ∧ touches p c = true)) →
      collision_slots q cs = (q, cs) := by
  intro cs
  induction cs with
  | nil => intro p q _ _; rfl
  | cons c cs ih =>
    intro p q hq h
    have hc : ¬ (c.is_active ≠ 0 ∧ touches q c = true) := by
      rw [hq c]; exact h c (List.mem_cons_self _ _)
    simp only [collision_slots]
    rw [if_neg hc, ih p q hq (fun c' hc' => h c' (List.mem_cons_of_mem _ hc'))]

theorem collision_slots_single :
    ∀ (cs : List Collectible) (p : Player) (k : Nat) (c : Collectible),
      cs[k]? = some c → c.is_active ≠ 0 → touches p c = true →
      (∀ i c', i ≠ k → cs[i]? = some c' → ¬ (c'.is_active ≠ 0 ∧ touches p c' = true)) →
      collision_slots p cs = (pickup p c, cs.set k { c with is_active := 0 }) := by
  intro cs
  induction cs with
  | nil => intro p k c hk; simp at hk
  | cons c0 cs ih =>
    intro p k c hk hact htouch hothers
    cases k with
    | zero =>
      simp at hk
      subst hk
      have hrest : ∀ c' ∈ cs, ¬ (c'.is_active ≠ 0 ∧ touches p c' = true) := by
        intro c' hc'
        obtain ⟨i, hi⟩ := List.getElem?_of_mem hc'
        exact hothers (i + 1) c' (by omega) (by simpa using hi)
      have hif : c0.is_active ≠ 0 ∧ touches p c0 = true := ⟨hact, htouch⟩
      simp only [collision_slots]
      rw [if_pos hif,
        collision_slots_none cs p (pickup p c0) (fun c' => touches_pickup p c0 c') hrest]
      rfl
    | succ j =>
      simp at hk
      have h0 : ¬ (c0.is_active ≠ 0 ∧ touches p c0 = true) :=
        hothers 0 c0 (by omega) (by simp)
      simp only [collision_slots]
      rw [if_neg h0, ih p j c hk hact htouch (fun i c' hi hget =>
        hothers (i + 1) c' (by omega) (by simpa using hget))]
      rfl

/-- C6 (as stated, fails on the code): in `example_high_score` the player overlaps exactly
one active collectible, a coin, with a score of 2147483640; after
`handle_collectible_collision` the score is -2147483646 (the 32-bit `int` has wrapped),
not 2147483640 + 10. -/
theorem pickup_score_overflow_counterexample :
    example_high_score.collectibles = [⟨60, 60, 1, 0, 0⟩] ∧
    touches example_high_score.player ⟨60, 60, 1, 0, 0⟩ = true ∧
    (handle_collectible_collision example_high_score).player.score = -2147483646 ∧
    (handle_collectible_collision example_high_score).player.score ≠
      example_high_score.player.score + 10 := by
  have ht : touches example_high_score.player ⟨60, 60, 1, 0, 0⟩ = true := by
    norm_num [touches, check_collision, example_high_score, PLAYER_WIDTH, PLAYER_HEIGHT,
      COLLECTIBLE_SIZE]
  have h := collision_slots_single example_high_score.collectibles
    example_high_score.player 0 ⟨60, 60, 1, 0, 0⟩ rfl (by decide) ht
    (by
      intro i c' hi hget
      match i, hi, hget with
      | 0, hi, _ => exact absurd rfl hi
      | n + 1, _, hget => simp [example_high_score] at hget)
  have hs : (handle_collectible_collision example_high_score).player.score =
      -2147483646 := by
    unfold handle_collectible_collision
    simp only [h]
    decide
  refine ⟨rfl, ht, hs, ?_⟩
  rw [hs]
  decide

/-- C6 (amended): pickup scoring.  When exactly one active collectible (slot `k`)
overlaps the player, `handle_collectible_collision` clears `is_active` of slot `k` and
leaves every other slot unchanged; for a coin (type 0) `jumps_remaining` and `vel_y` keep
their values and the score grows by exactly 10 provided the sum fits the 32-bit `int`;
for a power-up (type 1) `jumps_remaining` becomes 2, `vel_y` is halved and the score
grows by exactly 25 provided the sum fits the 32-bit `int`.  In general the new score is
the 32-bit wrap of the sum. -/
theorem pickup_scoring (g : Game) (k : Nat) (c : Collectible)
    (hk : g.collectibles[k]? = some c) (hact : c.is_active ≠ 0)
    (htouch : touches g.player c = true)
    (hothers : ∀ i c', i ≠ k → g.collectibles[i]? = some c' →
      ¬ (c'.is_active ≠ 0 ∧ touches g.player c' = true)) :
    (handle_collectible_collision g).collectibles =
      g.collectibles.set k { c with is_active := 0 } ∧
    (c.type = 0 →
      (handle_collectible_collision g).player.score = wrap32 (g.player.score + 10) ∧
      (-2147483648 ≤ g.player.score → g.player.score + 10 < 2147483648 →
        (handle_collectible_collision g).player.score = g.player.score + 10) ∧
      (handle_collectible_collision g).player.jumps_remaining = g.player.jumps_remaining ∧
      (handle_collectible_collision g).player.vel_y = g.player.vel_y) ∧
    (c.type = 1 →
      (handle_collectible_collision g).player.score = wrap32 (g.player.score + 25) ∧
      (-2147483648 ≤ g.player.score → g.player.score + 25 < 2147483648 →
        (handle_collectible_collision g).player.score = g.player.score + 25) ∧
      (handle_collectible_collision g).player.jumps_remaining = 2 ∧
      (handle_collectible_collision g).player.vel_y = g.player.vel_y * (1 / 2)) := by
  have h := collision_slots_single g.collectibles g.player k c hk hact htouch hothers
  unfold handle_collectible_collision
  simp only [h]
  refine ⟨trivial, ?_, ?_⟩
  · intro ht
    have e : (pickup g.player c).score = wrap32 (g.player.score + 10) := by
      simp [pickup, ht]
    refine ⟨e, fun h1 h2 => ?_, by simp [pickup, ht], by simp [pickup, ht]⟩
    rw [e]
    exact wrap32_eq_self ⟨by omega, h2⟩
  · intro ht
    have e : (pickup g.player c).score = wrap32 (g.player.score + 25) := by
      simp [pickup, ht]
    refine ⟨e, fun h1 h2 => ?_, by simp [pickup, ht], by simp [pickup, ht]⟩
    rw [e]
    exact wrap32_eq_self ⟨by omega, h2⟩

/-- Witness for C6: in `example_pickup` the power-up of slot 1 is the only overlap. -/
theorem pickup_scoring_witness :
    touches example_pickup.player ⟨60, 60, 1, 1, 0⟩ = true ∧
    (handle_collectible_collision example_pickup).collectibles =
      [⟨0, 0, 1, 0, 0⟩, ⟨60, 60, 0, 1, 0⟩] ∧
    (handle_collectible_collision example_pickup).player.score = 40 + 25 ∧
    (handle_collectible_collision example_pickup).player.jumps_remaining = 2 ∧
    (handle_collectible_collision example_pickup).player.vel_y = 6 * (1 / 2) := by
  have ht : touches example_pickup.player ⟨60, 60, 1, 1, 0⟩ = true := by
    norm_num [touches, check_collision, example_pickup, PLAYER_WIDTH, PLAYER_HEIGHT,
      COLLECTIBLE_SIZE]
  have h := pickup_scoring example_pickup 1 ⟨60, 60, 1, 1, 0⟩ rfl (by decide) ht
    (by
      intro i c' hi hget
      match i, hi, hget with
      | 0, _, hget =>
        have e : c' = ⟨0, 0, 1, 0, 0⟩ := by
          simpa [example_pickup] using hget.symm
        subst e
        norm_num [touches, check_collision, example_pickup, PLAYER_WIDTH, PLAYER_HEIGHT,
          COLLECTIBLE_SIZE]
      | 1, hi, _ => exact absurd rfl hi
      | n + 2, _, hget => simp [example_pickup] at hget)
  exact ⟨ht, h.1, (h.2.2 rfl).2.1 (by decide) (by decide), (h.2.2 rfl).2.2.1,
    (h.2.2 rfl).2.2.2⟩

/-! ### Screen boundaries -/

theorem update_game_before_boundaries_vinfo (sinf : ℚ → ℚ) (g : Game) :
    (update_game_before_boundaries sinf g).vinfo = g.vinfo := rfl

theorem spawn_occasionally_player (d : Draws) (g : Game) :
    (spawn_occasionally d g).player = g.player := by
  unfold spawn_occasionally
  split <;> rfl

theorem update_game_player (sinf : ℚ → ℚ) (d : Draws) (g : Game) :
    (update_game sinf d g).player =
      screen_boundaries g.vinfo (update_game_before_boundaries sinf g).player := by
  unfold update_game
  simp only [spawn_occasionally_player, update_game_before_boundaries_vinfo]

theorem screen_boundaries_spec (s : Surface) (p : Player)
    (hW : PLAYER_WIDTH ≤ (s.xres : Int)) (hH : PLAYER_HEIGHT ≤ (s.yres : Int))
    (hW32 : (s.xres : Int) < 4294967296) (hH32 : (s.yres : Int) < 4294967296) :
    0 ≤ (screen_boundaries s p).x ∧
    (screen_boundaries s p).x ≤ (s.xres : ℚ) - 30 ∧
    (screen_boundaries s p).y ≤ (s.yres : ℚ) - 30 ∧
    (p.x < 0 → (screen_boundaries s p).x = 0 ∧ (screen_boundaries s p).vel_x = 0) ∧
    (p.x > (s.xres : ℚ) - 30 →
      (screen_boundaries s p).x = (s.xres : ℚ) - 30 ∧ (screen_boundaries s p).vel_x = 0) ∧
    (p.y > (s.yres : ℚ) - 30 →
      (screen_boundaries s p).y = (s.yres : ℚ) - 30 ∧ (screen_boundaries s p).vel_y = 0 ∧
      (screen_boundaries s p).jumps_remaining = 2) := by
  have eX : ((toU32 ((s.xres : Int) - PLAYER_WIDTH) : Int) : ℚ) = (s.xres : ℚ) - 30 := by
    rw [toU32_eq_self (by omega) (by unfold PLAYER_WIDTH at *; omega)]
    simp [PLAYER_WIDTH]
  have eY : ((toU32 ((s.yres : Int) - PLAYER_HEIGHT) : Int) : ℚ) = (s.yres : ℚ) - 30 := by
    rw [toU32_eq_self (by omega) (by unfold PLAYER_HEIGHT at *; omega)]
    simp [PLAYER_HEIGHT]
  have hX : (0 : ℚ) ≤ (s.xres : ℚ) - 30 := by
    have h : (30 : Int) ≤ (s.xres : Int) := hW
    have : (30 : ℚ) ≤ (s.xres : ℚ) := by exact_mod_cast h
    linarith
  have hn : ¬ (0 : ℚ) > (s.xres : ℚ) - 30 := not_lt.mpr hX
  by_cases h1 : p.x < 0
  · have h2 : ¬ p.x > (s.xres : ℚ) - 30 := by linarith
    by_cases h3 : p.y > (s.yres : ℚ) - 30
    · have hq : screen_boundaries s p =
          { p with x := 0, vel_x := 0, y := (s.yres : ℚ) - 30, vel_y := 0,
                   jumps_remaining := 2 } := by
        unfold screen_boundaries
        simp only [eX, eY, h1, h3, hn, if_true, if_false]
      rw [hq]
      exact ⟨le_refl _, hX, le_refl _, fun _ => ⟨rfl, rfl⟩, fun h => absurd h h2,
        fun _ => ⟨rfl, rfl, rfl⟩⟩
    · have hq : screen_boundaries s p = { p with x := 0, vel_x := 0 } := by
        unfold screen_boundaries
        simp only [eX, eY, h1, h3, hn, if_true, if_false]
      rw [hq]
      exact ⟨le_refl _, hX, not_lt.mp h3, fun _ => ⟨rfl, rfl⟩, fun h => absurd h h2,
        fun h => absurd h h3⟩
  · by_cases h2 : p.x > (s.xres : ℚ) - 30
    · by_cases h3 : p.y > (s.yres : ℚ) - 30
      · have hq : screen_boundaries s p =
            { p with x := (s.xres : ℚ) - 30, vel_x := 0, y := (s.yres : ℚ) - 30,
                     vel_y := 0, jumps_remaining := 2 } := by
          unfold screen_boundaries
          simp only [eX, eY, h1, h2, h3, if_true, if_false]
        rw [hq]
        exact ⟨hX, le_refl _, le_refl _, fun h => absurd h h1, fun _ => ⟨rfl, rfl⟩,
          fun _ => ⟨rfl, rfl, rfl⟩⟩
      · have hq : screen_boundaries s p =
            { p with x := (s.xres : ℚ) - 30, vel_x := 0 } := by
          unfold screen_boundaries
          simp only [eX, eY, h1, h2, h3, if_true, if_false]
        rw [hq]
        exact ⟨hX, le_refl _, not_lt.mp h3, fun h => absurd h h1, fun _ => ⟨rfl, rfl⟩,
          fun h => absurd h h3⟩
    · by_cases h3 : p.y > (s.yres : ℚ) - 30
      · have hq : screen_boundaries s p =
            { p with y := (s.yres : ℚ) - 30, vel_y := 0, jumps_remaining := 2 } := by
          unfold screen_boundaries
          simp only [eX, eY, h1, h2, h3, if_true, if_false]
        rw [hq]
        exact ⟨not_lt.mp h1, not_lt.mp h2, le_refl _, fun h => absurd h h1,
          fun h => absurd h h2, fun _ => ⟨rfl, rfl, rfl⟩⟩
      · have hq : screen_boundaries s p = p := by
          unfold screen_boundaries
          simp only [eX, eY, h1, h2, h3, if_true, if_false]
        rw [hq]
        exact ⟨not_lt.mp h1, not_lt.mp h2, not_lt.mp h3, fun h => absurd h h1,
          fun h => absurd h h2, fun h => absurd h h3⟩

/-- C9: screen-boundary clamping.  On a surface at least as wide and as high as the
player, after `update_game` the player has `0 ≤ x ≤ xres - PLAYER_WIDTH` and
`y ≤ yres - PLAYER_HEIGHT`.  With `b` the player at the moment the boundary check runs:
if `b.x < 0` then `x = 0` and `vel_x = 0`; if `b.x > xres - PLAYER_WIDTH` then
`x = xres - PLAYER_WIDTH` and `vel_x = 0`; if `b.y > yres - PLAYER_HEIGHT` then
`y = yres - PLAYER_HEIGHT`, `vel_y = 0` and `jumps_remaining = 2`. -/
theorem screen_boundary_clamping (sinf : ℚ → ℚ) (d : Draws) (g : Game)
    (hW : PLAYER_WIDTH ≤ (g.vinfo.xres : Int)) (hH : PLAYER_HEIGHT ≤ (g.vinfo.yres : Int))
    (hW32 : (g.vinfo.xres : Int) < 4294967296) (hH32 : (g.vinfo.yres : Int) < 4294967296) :
    0 ≤ (update_game sinf d g).player.x ∧
    (update_game sinf d g).player.x ≤ (g.vinfo.xres : ℚ) - (PLAYER_WIDTH : ℚ) ∧
    (update_game sinf d g).player.y ≤ (g.vinfo.yres : ℚ) - (PLAYER_HEIGHT : ℚ) ∧
    ((update_game_before_boundaries sinf g).player.x < 0 →
      (update_game sinf d g).player.x = 0 ∧ (update_game sinf d g).player.vel_x = 0) ∧
    ((update_game_before_boundaries sinf g).player.x >
        (g.vinfo.xres : ℚ) - (PLAYER_WIDTH : ℚ) →
      (update_game sinf d g).player.x = (g.vinfo.xres : ℚ) - (PLAYER_WIDTH : ℚ) ∧
      (update_game sinf d g).player.vel_x = 0) ∧
    ((update_game_before_boundaries sinf g).player.y >
        (g.vinfo.yres : ℚ) - (PLAYER_HEIGHT : ℚ) →
      (update_game sinf d g).player.y = (g.vinfo.yres : ℚ) - (PLAYER_HEIGHT : ℚ) ∧
      (update_game sinf d g).player.vel_y = 0 ∧
      (update_game sinf d g).player.jumps_remaining = 2) := by
  have eW : ((PLAYER_WIDTH : Int) : ℚ) = 30 := by simp [PLAYER_WIDTH]
  have eH : ((PLAYER_HEIGHT : Int) : ℚ) = 30 := by simp [PLAYER_HEIGHT]
  rw [eW, eH, update_game_player]
  exact screen_boundaries_spec g.vinfo _ hW hH hW32 hH32

/-- Witness for C9: one tick of `example_game` on its 100x100 surface. -/
theorem screen_boundary_clamping_witness :
    PLAYER_WIDTH ≤ ((example_game.vinfo.xres : Nat) : Int) ∧
    0 ≤ (update_game (fun _ => 0) ⟨1, 0, 0, 0⟩ example_game).player.x ∧
    (update_game (fun _ => 0) ⟨1, 0, 0, 0⟩ example_game).player.x ≤
      (example_game.vinfo.xres : ℚ) - (PLAYER_WIDTH : ℚ) ∧
    (update_game (fun _ => 0) ⟨1, 0, 0, 0⟩ example_game).player.y ≤
      (example_game.vinfo.yres : ℚ) - (PLAYER_HEIGHT : ℚ) :=
  have h := screen_boundary_clamping (fun _ => 0) ⟨1, 0, 0, 0⟩ example_game
    (by decide) (by decide) (by decide) (by decide)
  ⟨by decide, h.1, h.2.1, h.2.2.1⟩

/-! ### What `draw_rect` and the loop models do compute -/

/-- For an origin with non-negative coordinates and non-overflowing far edges,
`draw_rect` stores `color` at exactly the pixels of the rectangle that lie on the
surface: the statement of C3 restricted to the origins the loop bounds handle. -/
theorem draw_rect_exact_nonneg (s : Surface) (x y width height : Int) (color : Nat)
    (hx : 0 ≤ x) (hy : 0 ≤ y) (hw : 0 ≤ width) (hh : 0 ≤ height)
    (hxw : x + width < 2147483648) (hyh : y + height < 2147483648) (p : PixelWrite) :
    p ∈ draw_rect s x y width height color ↔
      p.color = color ∧ x ≤ p.x ∧ p.x < x + width ∧ y ≤ p.y ∧ p.y < y + height ∧
      p.x < (s.xres : Int) ∧ p.y < (s.yres : Int) := by
  unfold draw_rect
  rw [wrap32_eq_self (n := x + width) ⟨by omega, hxw⟩,
    wrap32_eq_self (n := y + height) ⟨by omega, hyh⟩]
  have hfy : y + height - y ≤ ((y + height - y).toNat : Int) := by
    rw [Int.toNat_of_nonneg (by omega)]
  have hfx : x + width - x ≤ ((x + width - x).toNat : Int) := by
    rw [Int.toNat_of_nonneg (by omega)]
  rw [mem_for_loop_lt hyh _ _ hy hfy]
  constructor
  · rintro ⟨i, hi1, hi2, hi3, hp⟩
    rw [mem_for_loop_lt hxw _ _ hx hfx] at hp
    obtain ⟨j, hj1, hj2, hj3, hp⟩ := hp
    rw [if_pos ⟨by omega, by omega⟩, List.mem_singleton] at hp
    subst hp
    exact ⟨rfl, hj1, hj2, hi1, hi2, hj3, hi3⟩
  · rintro ⟨hc, h1, h2, h3, h4, h5, h6⟩
    refine ⟨p.y, h3, h4, h6, ?_⟩
    rw [mem_for_loop_lt hxw _ _ hx hfx]
    refine ⟨p.x, h1, h2, h5, ?_⟩
    rw [if_pos ⟨by omega, by omega⟩, List.mem_singleton]
    cases p
    simp only at hc
    simp [hc]

/-- The fuel of the row loop of `draw_rect` is adequate: any additional fuel yields the
same sequence of stores. -/
theorem draw_rect_rows_fuel (s : Surface) (y height : Int) (hy : isInt y)
    (body : Int → List PixelWrite) (extra : Nat) :
    for_loop
        (fun i => decide (i < wrap32 (y + height)) && decide (toU32 i < (s.yres : Int)))
        body ((wrap32 (y + height) - y).toNat + extra) y =
      for_loop
        (fun i => decide (i < wrap32 (y + height)) && decide (toU32 i < (s.yres : Int)))
        body (wrap32 (y + height) - y).toNat y := by
  refine for_loop_fuel_enough ?_ (wrap32_isInt (y + height)).2 extra _ y hy.1 ?_
  · intro i hi
    simp only [Bool.and_eq_true, decide_eq_true_eq] at hi
    exact hi.1
  · have := Int.self_le_toNat (wrap32 (y + height) - y)
    omega

/-! ### Platform loop -/

theorem land_on_of_not_guard (p : Player) (pl : Platform)
    (h : landing_guard p pl = false) : land_on p pl = p := by
  unfold landing_guard overlaps_platform at h
  unfold land_on
  by_cases hc : check_collision p.x p.y PLAYER_WIDTH PLAYER_HEIGHT
      (pl.x : ℚ) (pl.y : ℚ) pl.width PLATFORM_HEIGHT = true
  · by_cases hv : p.vel_y > 0
    · simp [hc, hv] at h
    · rw [if_pos hc, if_neg hv]
  · rw [if_neg hc]

theorem land_on_of_vel_nonpos (p : Player) (pl : Platform) (h : ¬ p.vel_y > 0) :
    land_on p pl = p := by
  apply land_on_of_not_guard
  simp [landing_guard, h]

theorem land_on_of_not_overlap (p : Player) (pl : Platform)
    (h : overlaps_platform p pl = false) : land_on p pl = p := by
  apply land_on_of_not_guard
  simp [landing_guard, h]

theorem land_on_of_guard (p : Player) (pl : Platform) (h : landing_guard p pl = true) :
    land_on p pl =
      { p with
        y := ((pl.y - PLAYER_HEIGHT : Int) : ℚ)
        vel_y := 0
        jumps_remaining := 2
        x := if pl.is_moving ≠ 0 then
            p.x + pl.move_speed * (if (pl.x : ℚ) > pl.initial_x then -1 else 1)
          else p.x } := by
  unfold landing_guard overlaps_platform at h
  simp only [Bool.and_eq_true, decide_eq_true_eq] at h
  unfold land_on
  rw [if_pos h.1, if_pos h.2]
  by_cases hm : pl.is_moving ≠ 0
  · simp only [if_pos hm]
  · simp only [if_neg hm]

theorem foldl_land_on_of_vel_nonpos :
    ∀ (pls : List Platform) (p : Player), ¬ p.vel_y > 0 → pls.foldl land_on p = p := by
  intro pls
  induction pls with
  | nil => intro p _; rfl
  | cons pl pls ih =>
    intro p h
    rw [List.foldl_cons, land_on_of_vel_nonpos p pl h]
    exact ih p h

/-- A loop that ends with a positive velocity has not landed anywhere. -/
theorem foldl_land_on_vel_pos :
    ∀ (pls : List Platform) (p : Player), (pls.foldl land_on p).vel_y > 0 →
      pls.foldl land_on p = p ∧ ∀ pl ∈ pls, overlaps_platform p pl = false := by
  intro pls
  induction pls with
  | nil => intro p _; exact ⟨rfl, fun pl h => by simp at h⟩
  | cons pl pls ih =>
    intro p h
    rw [List.foldl_cons] at h ⊢
    obtain ⟨h1, h2⟩ := ih (land_on p pl) h
    rw [h1] at h
    by_cases hg : landing_guard p pl = true
    · rw [land_on_of_guard p pl hg] at h
      simp at h
    · have hg' : landing_guard p pl = false := by simpa using hg
      have e := land_on_of_not_guard p pl hg'
      rw [e] at h h1 h2 ⊢
      refine ⟨h1, ?_⟩
      intro pl' hm
      rcases List.mem_cons.mp hm with hm | hm
      · subst hm
        unfold landing_guard at hg'
        simpa [h] using hg'
      · exact h2 pl' hm

theorem foldl_land_on_first :
    ∀ (pls : List Platform) (p : Player) (k : Nat) (pl : Platform),
      pls[k]? = some pl →
      (∀ i pli, i < k → pls[i]? = some pli → overlaps_platform p pli = false) →
      landing_guard p pl = true →
      pls.foldl land_on p = land_on p pl := by
  intro pls
  induction pls with
  | nil => intro p k pl hk; simp at hk
  | cons pl0 pls ih =>
    intro p k pl hk hlow hg
    cases k with
    | zero =>
      simp at hk
      subst hk
      rw [List.foldl_cons]
      apply foldl_land_on_of_vel_nonpos
      rw [land_on_of_guard p pl0 hg]
      simp
    | succ j =>
      simp at hk
      rw [List.foldl_cons, land_on_of_not_overlap p pl0 (hlow 0 pl0 (by omega) (by simp))]
      exact ih p j pl hk
        (fun i pli hi hget => hlow (i + 1) pli (by omega) (by simpa using hget)) hg

theorem foldl_land_on_cases :
    ∀ (pls : List Platform) (p : Player),
      pls.foldl land_on p = p ∨
      ∃ pl ∈ pls, landing_guard p pl = true ∧ pls.foldl land_on p = land_on p pl := by
  intro pls
  induction pls with
  | nil => intro p; left; rfl
  | cons pl pls ih =>
    intro p
    rw [List.foldl_cons]
    by_cases hg : landing_guard p pl = true
    · right
      refine ⟨pl, List.mem_cons_self _ _, hg, ?_⟩
      apply foldl_land_on_of_vel_nonpos
      rw [land_on_of_guard p pl hg]
      simp
    · have hg' : landing_guard p pl = false := by simpa using hg
      rw [land_on_of_not_guard p pl hg']
      rcases ih p with h | ⟨pl', hm, hg2, h⟩
      · left; exact h
      · right; exact ⟨pl', List.mem_cons_of_mem _ hm, hg2, h⟩

theorem foldl_land_on_take_succ (pls : List Platform) (p : Player) (k : Nat)
    (pl : Platform) (hk : pls[k]? = some pl) :
    (pls.take (k + 1)).foldl land_on p = land_on ((pls.take k).foldl land_on p) pl := by
  rw [List.take_succ, List.foldl_append, hk]
  rfl

/-- C18 (as stated, fails on the code): in `example_apex` the player enters the tick with
`vel_y = -1`; after gravity the velocity is exactly 0 and the box overlaps the platform at
`y = 90`, yet no landing happens: `y` stays 61 (not 90 - 30) and `jumps_remaining`
stays 1 (not 2). -/
theorem landing_at_zero_velocity_counterexample :
    (integrate example_apex.player).vel_y = 0 ∧
    overlaps_platform (integrate example_apex.player) ⟨10, 90, 80, 0, 1, 10, 100⟩ = true ∧
    (update_game (fun _ => 0) ⟨1, 0, 0, 0⟩ example_apex).player.y = 61 ∧
    (update_game (fun _ => 0) ⟨1, 0, 0, 0⟩ example_apex).player.y ≠
      (((90 : Int) - PLAYER_HEIGHT : Int) : ℚ) ∧
    (update_game (fun _ => 0) ⟨1, 0, 0, 0⟩ example_apex).player.jumps_remaining = 1 := by
  have hi : integrate example_apex.player = ⟨20, 61, 0, 0, 1, 0, 1⟩ := by
    norm_num [integrate, example_apex, GRAVITY, MAX_VELOCITY]
  have hl : land_on ⟨20, 61, 0, 0, 1, 0, 1⟩ ⟨10, 90, 80, 0, 1, 10, 100⟩ =
      ⟨20, 61, 0, 0, 1, 0, 1⟩ := land_on_of_vel_nonpos _ _ (by norm_num)
  have hu : (update_game (fun _ => 0) ⟨1, 0, 0, 0⟩ example_apex).player =
      ⟨20, 61, 0, 0, 1, 0, 1⟩ := by
    rw [update_game_player]
    have hb : (update_game_before_boundaries (fun _ => 0) example_apex).player =
        ⟨20, 61, 0, 0, 1, 0, 1⟩ := by
      simp only [update_game_before_boundaries, update_platforms, update_collectibles,
        handle_collectible_collision, hi]
      simp [example_apex, hl, collision_slots]
    rw [hb]
    norm_num [screen_boundaries, example_apex, toU32, PLAYER_WIDTH, PLAYER_HEIGHT]
  refine ⟨by rw [hi], ?_, by rw [hu], ?_, by rw [hu]⟩
  · rw [hi]
    norm_num [overlaps_platform, check_collision, PLAYER_WIDTH, PLAYER_HEIGHT,
      PLATFORM_HEIGHT]
  · rw [hu]
    norm_num [PLAYER_HEIGHT]

/-- C18 (amended): an iteration of the platform loop lands the player exactly when the
platform's box overlaps the player's current box and the current vertical velocity is
strictly positive: then `y = platform.y - PLAYER_HEIGHT`, `vel_y = 0` and
`jumps_remaining = 2`.  With a velocity that is negative or exactly 0 no landing happens
and the whole platform loop leaves the player, in particular `y`, `vel_y` and
`jumps_remaining`, untouched. -/
theorem landing_condition (p : Player) (pl : Platform) (pls : List Platform) :
    (overlaps_platform p pl = true → p.vel_y > 0 →
      (land_on p pl).y = ((pl.y - PLAYER_HEIGHT : Int) : ℚ) ∧
      (land_on p pl).vel_y = 0 ∧ (land_on p pl).jumps_remaining = 2) ∧
    (p.vel_y ≤ 0 → pls.foldl land_on p = p) := by
  constructor
  · intro ho hv
    have hg : landing_guard p pl = true := by simp [landing_guard, ho, hv]
    rw [land_on_of_guard p pl hg]
    exact ⟨rfl, rfl, rfl⟩
  · intro hv
    exact foldl_land_on_of_vel_nonpos pls p (not_lt.mpr hv)

/-- Witness for the amended C18: `example_faller` lands on the platform at `y = 90`. -/
theorem landing_condition_witness :
    overlaps_platform example_faller ⟨10, 90, 80, 0, 1, 10, 100⟩ = true ∧
    example_faller.vel_y > 0 ∧
    (land_on example_faller ⟨10, 90, 80, 0, 1, 10, 100⟩).y =
      (((90 : Int) - PLAYER_HEIGHT : Int) : ℚ) ∧
    (land_on example_faller ⟨10, 90, 80, 0, 1, 10, 100⟩).vel_y = 0 ∧
    (land_on example_faller ⟨10, 90, 80, 0, 1, 10, 100⟩).jumps_remaining = 2 := by
  have ho : overlaps_platform example_faller ⟨10, 90, 80, 0, 1, 10, 100⟩ = true := by
    norm_num [overlaps_platform, check_collision, example_faller, PLAYER_WIDTH,
      PLAYER_HEIGHT, PLATFORM_HEIGHT]
  have hv : example_faller.vel_y > 0 := by norm_num [example_faller]
  exact ⟨ho, hv, (landing_condition example_faller ⟨10, 90, 80, 0, 1, 10, 100⟩ []).1 ho hv⟩

/-- C19 (as stated, fails on the code): `example_faller` falls onto `example_stack`, whose
two platforms both overlap its box, before and after the first snap; after the platform
loop `y` is 60, the snap to the first platform (`90 - 30`), not the snap to the
higher-indexed one (`85 - 30`). -/
theorem last_write_wins_counterexample :
    example_faller.vel_y > 0 ∧
    overlaps_platform example_faller ⟨10, 90, 80, 0, 1, 10, 100⟩ = true ∧
    overlaps_platform example_faller ⟨10, 85, 80, 0, 1, 10, 100⟩ = true ∧
    overlaps_platform (land_on example_faller ⟨10, 90, 80, 0, 1, 10, 100⟩)
      ⟨10, 85, 80, 0, 1, 10, 100⟩ = true ∧
    (example_stack.foldl land_on example_faller).y = 60 ∧
    (example_stack.foldl land_on example_faller).y ≠
      (((85 : Int) - PLAYER_HEIGHT : Int) : ℚ) := by
  have hv : example_faller.vel_y > 0 := by norm_num [example_faller]
  have h1 : overlaps_platform example_faller ⟨10, 90, 80, 0, 1, 10, 100⟩ = true := by
    norm_num [overlaps_platform, check_collision, example_faller, PLAYER_WIDTH,
      PLAYER_HEIGHT, PLATFORM_HEIGHT]
  have h2 : overlaps_platform example_faller ⟨10, 85, 80, 0, 1, 10, 100⟩ = true := by
    norm_num [overlaps_platform, check_collision, example_faller, PLAYER_WIDTH,
      PLAYER_HEIGHT, PLATFORM_HEIGHT]
  have hg : landing_guard example_faller ⟨10, 90, 80, 0, 1, 10, 100⟩ = true := by
    simp [landing_guard, h1, hv]
  have e : example_stack.foldl land_on example_faller =
      land_on example_faller ⟨10, 90, 80, 0, 1, 10, 100⟩ :=
    foldl_land_on_first example_stack example_faller 0 _ rfl
      (fun i _ hi _ => absurd hi (by omega)) hg
  rw [e, land_on_of_guard _ _ hg]
  refine ⟨hv, h1, h2, ?_, ?_, ?_⟩
  · norm_num [overlaps_platform, check_collision, example_faller, PLAYER_WIDTH,
      PLAYER_HEIGHT, PLATFORM_HEIGHT]
  · norm_num [PLAYER_HEIGHT]
  · norm_num [PLAYER_HEIGHT]

/-- C19 (amended): when the falling player (`vel_y > 0`) overlaps several platforms in
the same tick, the landing resolution is applied for the lowest-index overlapping
platform only: after the platform loop `y` is that platform's `y - PLAYER_HEIGHT`,
`vel_y` is 0 and `jumps_remaining` is 2, whatever platforms follow it. -/
theorem first_landing_wins (pls : List Platform) (p : Player) (k : Nat) (pl : Platform)
    (hk : pls[k]? = some pl)
    (hlow : ∀ i pli, i < k → pls[i]? = some pli → overlaps_platform p pli = false)
    (hov : overlaps_platform p pl = true) (hv : p.vel_y > 0) :
    (pls.foldl land_on p).y = ((pl.y - PLAYER_HEIGHT : Int) : ℚ) ∧
    (pls.foldl land_on p).vel_y = 0 ∧
    (pls.foldl land_on p).jumps_remaining = 2 := by
  have hg : landing_guard p pl = true := by simp [landing_guard, hov, hv]
  rw [foldl_land_on_first pls p k pl hk hlow hg, land_on_of_guard p pl hg]
  exact ⟨rfl, rfl, rfl⟩

/-- Witness for the amended C19: `example_faller` on `example_stack` ends at `90 - 30`. -/
theorem first_landing_wins_witness :
    (example_stack.foldl land_on example_faller).y =
      (((90 : Int) - PLAYER_HEIGHT : Int) : ℚ) ∧
    (example_stack.foldl land_on example_faller).vel_y = 0 ∧
    (example_stack.foldl land_on example_faller).jumps_remaining = 2 :=
  first_landing_wins example_stack example_faller 0 ⟨10, 90, 80, 0, 1, 10, 100⟩ rfl
    (fun i _ hi _ => absurd hi (by omega))
    (by norm_num [overlaps_platform, check_collision, example_faller, PLAYER_WIDTH,
      PLAYER_HEIGHT, PLATFORM_HEIGHT])
    (by norm_num [example_faller])

/-- C20: at most one landing per tick.  In the platform loop started with player `p` the
landing block runs in at most one iteration; an iteration in which it runs is the
lowest-index platform that overlaps `p` while `p.vel_y > 0`, and the loop ends with the
result of that single landing; so `x` is unchanged or has moved by exactly one platform's
`move_speed`, to the left or to the right. -/
theorem at_most_one_landing (pls : List Platform) (p : Player) :
    (∀ i j pli plj, i < j → pls[i]? = some pli → pls[j]? = some plj →
      landing_guard ((pls.take i).foldl land_on p) pli = true →
      landing_guard ((pls.take j).foldl land_on p) plj = false) ∧
    (∀ i pli, pls[i]? = some pli →
      landing_guard ((pls.take i).foldl land_on p) pli = true →
      p.vel_y > 0 ∧ overlaps_platform p pli = true ∧
      (∀ k plk, k < i → pls[k]? = some plk → overlaps_platform p plk = false) ∧
      pls.foldl land_on p = land_on p pli) ∧
    ((pls.foldl land_on p).x = p.x ∨
      ∃ pl ∈ pls, (pls.foldl land_on p).x = p.x + pl.move_speed ∨
        (pls.foldl land_on p).x = p.x - pl.move_speed) := by
  have key : ∀ i pli, pls[i]? = some pli →
      landing_guard ((pls.take i).foldl land_on p) pli = true →
      (pls.take i).foldl land_on p = p ∧
      ∀ pl ∈ pls.take i, overlaps_platform p pl = false := by
    intro i pli _ hg
    apply foldl_land_on_vel_pos
    unfold landing_guard at hg
    simp only [Bool.and_eq_true, decide_eq_true_eq] at hg
    exact hg.2
  refine ⟨?_, ?_, ?_⟩
  · intro i j pli plj hij hi hj hg
    have hstep := foldl_land_on_take_succ pls p i pli hi
    have hz : ((pls.take (i + 1)).foldl land_on p).vel_y = 0 := by
      rw [hstep, land_on_of_guard _ _ hg]
    have hsplit : pls.take j =
        pls.take (i + 1) ++ (pls.take j).drop (i + 1) := by
      have h := (List.take_append_drop (i + 1) (pls.take j)).symm
      rw [List.take_take, Nat.min_eq_left (by omega)] at h
      exact h
    have hq : (pls.take j).foldl land_on p = (pls.take (i + 1)).foldl land_on p := by
      rw [hsplit, List.foldl_append]
      exact foldl_land_on_of_vel_nonpos _ _ (by rw [hz]; exact lt_irrefl 0)
    unfold landing_guard
    rw [hq, hz]
    simp
  · intro i pli hi hg
    obtain ⟨hp, hno⟩ := key i pli hi hg
    rw [hp] at hg
    have hg2 := hg
    unfold landing_guard at hg2
    simp only [Bool.and_eq_true, decide_eq_true_eq] at hg2
    have hlow : ∀ k plk, k < i → pls[k]? = some plk → overlaps_platform p plk = false := by
      intro k plk hki hk
      apply hno
      rw [List.mem_iff_getElem?]
      exact ⟨k, by rw [List.getElem?_take, if_pos hki]; exact hk⟩
    exact ⟨hg2.2, hg2.1, hlow, foldl_land_on_first pls p i pli hi hlow hg⟩
  · rcases foldl_land_on_cases pls p with h | ⟨pl, hm, hg, h⟩
    · left; rw [h]
    · rw [h, land_on_of_guard p pl hg]
      by_cases hmv : pl.is_moving ≠ 0
      · right
        refine ⟨pl, hm, ?_⟩
        by_cases hd : (pl.x : ℚ) > pl.initial_x
        · right
          simp only [if_pos hmv, if_pos hd]
          ring
        · left
          simp only [if_pos hmv, if_neg hd]
          ring
      · left
        simp only [if_neg hmv]

/-- Witness for C20: on `example_stack` the landing block runs for the first platform, so
it does not run for the second one. -/
theorem at_most_one_landing_witness :
    landing_guard example_faller ⟨10, 90, 80, 0, 1, 10, 100⟩ = true ∧
    landing_guard ((example_stack.take 1).foldl land_on example_faller)
      ⟨10, 85, 80, 0, 1, 10, 100⟩ = false := by
  have hg : landing_guard example_faller ⟨10, 90, 80, 0, 1, 10, 100⟩ = true := by
    norm_num [landing_guard, overlaps_platform, check_collision, example_faller,
      PLAYER_WIDTH, PLAYER_HEIGHT, PLATFORM_HEIGHT]
  exact ⟨hg, (at_most_one_landing example_stack example_faller).1 0 1 _ _ (by omega)
    rfl rfl hg⟩

/-! ### Resting on a platform -/

theorem integrate_at_rest (p : Player) (hvx : p.vel_x = 0) (hvy : p.vel_y = 0) :
    integrate p = { p with vel_y := 1, y := p.y + 1 } := by
  obtain ⟨x, y, vx, vy, jr, sc, f⟩ := p
  simp only at hvx hvy
  subst hvx hvy
  norm_num [integrate, GRAVITY, MAX_VELOCITY]

theorem update_platforms_static (sinf : ℚ → ℚ) (g : Game) (k : Nat) (P : Platform)
    (hk : g.platforms[k]? = some P) (hstatic : P.is_moving = 0) :
    (update_platforms sinf g).platforms[k]? = some P := by
  simp [update_platforms, List.getElem?_map, hk, hstatic]

theorem collision_slots_update_none (sinf : ℚ → ℚ) (g : Game) (p : Player)
    (hcoll : ∀ c ∈ g.collectibles, ¬ (c.is_active ≠ 0 ∧ touches p c = true)) :
    collision_slots p (update_collectibles sinf g).collectibles =
      (p, (update_collectibles sinf g).collectibles) := by
  apply collision_slots_none _ p p (fun _ => rfl)
  intro c hc
  simp only [update_collectibles, List.mem_map] at hc
  obtain ⟨c0, hm, rfl⟩ := hc
  have h0 := hcoll c0 hm
  by_cases ha : c0.is_active ≠ 0
  · simp only [if_pos ha]
    exact h0
  · simp only [if_neg ha]
    exact h0

theorem screen_boundaries_inside (s : Surface) (p : Player)
    (hx0 : 0 ≤ p.x) (hx1 : p.x ≤ (s.xres : ℚ) - (PLAYER_WIDTH : ℚ))
    (hy1 : p.y ≤ (s.yres : ℚ) - (PLAYER_HEIGHT : ℚ))
    (hW32 : (s.xres : Int) < 4294967296) (hH32 : (s.yres : Int) < 4294967296) :
    screen_boundaries s p = p := by
  have hWq : (PLAYER_WIDTH : ℚ) ≤ (s.xres : ℚ) := by linarith
  have hW : PLAYER_WIDTH ≤ (s.xres : Int) := by exact_mod_cast hWq
  have eX : ((toU32 ((s.xres : Int) - PLAYER_WIDTH) : Int) : ℚ) =
      (s.xres : ℚ) - (PLAYER_WIDTH : ℚ) := by
    rw [toU32_eq_self (by omega) (by unfold PLAYER_WIDTH at *; omega)]
    push_cast
    rfl
  have hYi : (s.yres : Int) - PLAYER_HEIGHT ≤ toU32 ((s.yres : Int) - PLAYER_HEIGHT) := by
    unfold toU32 PLAYER_HEIGHT
    omega
  have hY : (s.yres : ℚ) - (PLAYER_HEIGHT : ℚ) ≤
      ((toU32 ((s.yres : Int) - PLAYER_HEIGHT) : Int) : ℚ) := by
    have : (((s.yres : Int) - PLAYER_HEIGHT : Int) : ℚ) ≤
        ((toU32 ((s.yres : Int) - PLAYER_HEIGHT) : Int) : ℚ) := by exact_mod_cast hYi
    push_cast at this
    exact this
  unfold screen_boundaries
  have h1 : ¬ p.x < 0 := not_lt.mpr hx0
  have h2 : ¬ p.x > ((toU32 ((s.xres : Int) - PLAYER_WIDTH) : Int) : ℚ) := by
    rw [eX]; exact not_lt.mpr hx1
  have h3 : ¬ p.y > ((toU32 ((s.yres : Int) - PLAYER_HEIGHT) : Int) : ℚ) :=
    not_lt.mpr (le_trans hy1 hY)
  simp only [h1, h2, h3, if_false]

/-- C11 (amended): resting on a platform is a fixed point of the tick.  The player stands
on the static platform `P` of slot `k` (`y = P.y - PLAYER_HEIGHT`, `vel_x = vel_y = 0`,
`jumps_remaining = 2`, horizontal extents overlapping), no other platform, taken at the
position `update_platforms` gives it in this tick, overlaps the player's box after
integration, no active collectible overlaps the player, and the player is inside the
screen bounds.  Then integration makes `vel_y = GRAVITY = 1` and
`y = P.y - PLAYER_HEIGHT + 1`, and the tick ends with the player it started with:
`y = P.y - PLAYER_HEIGHT`, `vel_y = 0`, `jumps_remaining = 2`, `x` unchanged. -/
theorem resting_fixed_point (sinf : ℚ → ℚ) (d : Draws) (g : Game) (k : Nat) (P : Platform)
    (hk : g.platforms[k]? = some P) (hstatic : P.is_moving = 0)
    (hy : g.player.y = ((P.y - PLAYER_HEIGHT : Int) : ℚ))
    (hvx : g.player.vel_x = 0) (hvy : g.player.vel_y = 0)
    (hjr : g.player.jumps_remaining = 2)
    (hxl : g.player.x < (P.x : ℚ) + (P.width : ℚ))
    (hxr : g.player.x + (PLAYER_WIDTH : ℚ) > (P.x : ℚ))
    (hothers : ∀ i Q, i ≠ k → (update_platforms sinf g).platforms[i]? = some Q →
      overlaps_platform (integrate g.player) Q = false)
    (hcoll : ∀ c ∈ g.collectibles, ¬ (c.is_active ≠ 0 ∧ touches g.player c = true))
    (hx0 : 0 ≤ g.player.x)
    (hx1 : g.player.x ≤ (g.vinfo.xres : ℚ) - (PLAYER_WIDTH : ℚ))
    (hy1 : g.player.y ≤ (g.vinfo.yres : ℚ) - (PLAYER_HEIGHT : ℚ))
    (hW32 : (g.vinfo.xres : Int) < 4294967296) (hH32 : (g.vinfo.yres : Int) < 4294967296) :
    (integrate g.player).vel_y = GRAVITY ∧ GRAVITY = 1 ∧
    (integrate g.player).y = ((P.y - PLAYER_HEIGHT : Int) : ℚ) + 1 ∧
    (update_game sinf d g).player = g.player ∧
    (update_game sinf d g).player.y = ((P.y - PLAYER_HEIGHT : Int) : ℚ) ∧
    (update_game sinf d g).player.vel_y = 0 ∧
    (update_game sinf d g).player.jumps_remaining = 2 ∧
    (update_game sinf d g).player.x = g.player.x := by
  have hi := integrate_at_rest g.player hvx hvy
  have hov : overlaps_platform (integrate g.player) P = true := by
    rw [hi]
    have e : ((P.y - PLAYER_HEIGHT : Int) : ℚ) = (P.y : ℚ) - 30 := by
      simp [PLAYER_HEIGHT]
    have hw : ((PLAYER_WIDTH : Int) : ℚ) = 30 := by simp [PLAYER_WIDTH]
    rw [e] at hy
    rw [hw] at hxr
    simp only [overlaps_platform, check_collision, Bool.and_eq_true, decide_eq_true_eq, hy]
    refine ⟨⟨⟨hxl, ?_⟩, ?_⟩, ?_⟩
    · simpa [PLAYER_WIDTH] using hxr
    · simp only [PLATFORM_HEIGHT]
      push_cast
      linarith
    · simp only [PLAYER_HEIGHT]
      push_cast
      linarith
  have hg : landing_guard (integrate g.player) P = true := by
    unfold landing_guard
    rw [hov, hi]
    norm_num
  have hloop : (update_platforms sinf g).platforms.foldl land_on (integrate g.player) =
      g.player := by
    rw [foldl_land_on_first _ _ k P (update_platforms_static sinf g k P hk hstatic)
      (fun i Q hi hQ => hothers i Q (by omega) hQ) hg, land_on_of_guard _ _ hg, hi]
    rcases hp : g.player with ⟨x, y, vx, vy, jr, sc, f⟩
    rw [hp] at hy hvy hjr
    simp only at hy hvy hjr
    simp [hstatic, hy, hvy, hjr]
  have hb : (update_game_before_boundaries sinf g).player = g.player := by
    have h1 : update_game_before_boundaries sinf g =
        handle_collectible_collision (update_collectibles sinf
          { update_platforms sinf { g with player := integrate g.player } with
            player := (update_platforms sinf g).platforms.foldl land_on
              (integrate g.player) }) := rfl
    rw [h1, hloop]
    unfold handle_collectible_collision
    have h2 := collision_slots_update_none sinf
      { update_platforms sinf { g with player := integrate g.player } with
        player := g.player } g.player hcoll
    simp only [update_collectibles, update_platforms] at h2 ⊢
    rw [h2]
  have hu : (update_game sinf d g).player = g.player := by
    rw [update_game_player, hb]
    exact screen_boundaries_inside g.vinfo g.player hx0 hx1 hy1 hW32 hH32
  refine ⟨by rw [hi, GRAVITY], rfl, by rw [hi, hy], hu, by rw [hu, hy], by rw [hu, hvy],
    by rw [hu, hjr], by rw [hu]⟩

/-- Witness for C11: one tick of `example_resting` returns the player it started with. -/
theorem resting_fixed_point_witness :
    example_resting.platforms[1]? = some ⟨10, 90, 80, 0, 1, 10, 100⟩ ∧
    example_resting.player.y = (((90 : Int) - PLAYER_HEIGHT : Int) : ℚ) ∧
    (update_game (fun _ => 0) ⟨1, 0, 0, 0⟩ example_resting).player =
      example_resting.player := by
  have hy : example_resting.player.y = (((90 : Int) - PLAYER_HEIGHT : Int) : ℚ) := by
    norm_num [example_resting, PLAYER_HEIGHT]
  have hi : integrate example_resting.player = ⟨50, 61, 0, 1, 2, 0, 1⟩ := by
    norm_num [integrate, example_resting, GRAVITY, MAX_VELOCITY]
  have hf : float_to_int (100 + 0 * 50) = 100 := by
    norm_num [float_to_int, trunc_toward_zero]
  have h := resting_fixed_point (fun _ => 0) ⟨1, 0, 0, 0⟩ example_resting 1
    ⟨10, 90, 80, 0, 1, 10, 100⟩ rfl rfl hy rfl rfl rfl
    (by norm_num [example_resting])
    (by norm_num [example_resting, PLAYER_WIDTH])
    (by
      intro i Q hne hQ
      rw [hi]
      match i, hne, hQ with
      | 0, _, hQ =>
        have e : Q = ⟨100, 10, 80, 1, 2, 100, 50⟩ := by
          simpa [update_platforms, example_resting, hf] using hQ.symm
        subst e
        norm_num [overlaps_platform, check_collision, PLAYER_WIDTH, PLAYER_HEIGHT,
          PLATFORM_HEIGHT]
      | 1, hne, _ => exact absurd rfl hne
      | n + 2, _, hQ => simp [update_platforms, example_resting] at hQ)
    (by
      intro c hc
      have e : c = ⟨0, 0, 1, 0, 0⟩ := by simpa [example_resting] using hc
      subst e
      norm_num [touches, check_collision, example_resting, PLAYER_WIDTH, PLAYER_HEIGHT,
        COLLECTIBLE_SIZE])
    (by norm_num [example_resting])
    (by norm_num [example_resting, PLAYER_WIDTH])
    (by norm_num [example_resting, PLAYER_HEIGHT])
    (by decide) (by decide)
  exact ⟨rfl, hy, h.2.2.2.1⟩

/-! ### Moving platforms -/

/-- Truncation toward zero is the floor of a non-negative and the ceiling of a negative
value. -/
theorem trunc_toward_zero_eq (q : ℚ) :
    trunc_toward_zero q = if 0 ≤ q then ⌊q⌋ else ⌈q⌉ := by
  unfold trunc_toward_zero
  by_cases h : 0 ≤ q
  · rw [if_pos h, Rat.floor_def,
      Int.tdiv_eq_ediv (Rat.num_nonneg.mpr h) (Int.natCast_nonneg _)]
  · rw [if_neg h]
    have hq : 0 ≤ -q := by linarith [not_le.mp h]
    have h1 : ⌈q⌉ = -⌊-q⌋ := by
      have := Int.ceil_neg (a := -q)
      rwa [neg_neg] at this
    have h2 : q.num.tdiv (q.den : Int) = -((-q.num).tdiv (q.den : Int)) := by
      rw [Int.neg_tdiv, neg_neg]
    have h3 : 0 ≤ -q.num := by
      have := Rat.num_nonneg.mpr hq
      rwa [Rat.neg_num] at this
    rw [h1, h2, Int.tdiv_eq_ediv h3 (Int.natCast_nonneg _), Rat.floor_def, Rat.neg_num,
      Rat.den_neg_eq_den]

theorem trunc_toward_zero_ge_int (q : ℚ) (a : Int) (h : (a : ℚ) ≤ q) :
    a ≤ trunc_toward_zero q := by
  rw [trunc_toward_zero_eq]
  by_cases h0 : 0 ≤ q
  · rw [if_pos h0]
    exact Int.le_floor.mpr h
  · rw [if_neg h0]
    have : (a : ℚ) ≤ (⌈q⌉ : ℚ) := le_trans h (Int.le_ceil q)
    exact_mod_cast this

theorem trunc_toward_zero_le_int (q : ℚ) (b : Int) (h : q ≤ (b : ℚ)) :
    trunc_toward_zero q ≤ b := by
  rw [trunc_toward_zero_eq]
  by_cases h0 : 0 ≤ q
  · rw [if_pos h0]
    have : (⌊q⌋ : ℚ) ≤ (b : ℚ) := le_trans (Int.floor_le q) h
    exact_mod_cast this
  · rw [if_neg h0]
    exact Int.ceil_le.mpr h

/-- Inside the range of the 32-bit `int` the conversion is the truncation. -/
theorem float_to_int_of_range (q : ℚ) (h1 : (-2147483648 : ℚ) ≤ q)
    (h2 : q ≤ (2147483647 : ℚ)) : float_to_int q = trunc_toward_zero q := by
  have g1 := trunc_toward_zero_ge_int q (-2147483648) (by push_cast; exact h1)
  have g2 := trunc_toward_zero_le_int q 2147483647 (by push_cast; exact h2)
  unfold float_to_int
  rw [if_pos ⟨g1, by omega⟩]

theorem update_platforms_moving (sinf : ℚ → ℚ) (g : Game) (i : Nat) (pl : Platform)
    (hi : g.platforms[i]? = some pl) (hm : pl.is_moving ≠ 0) :
    (update_platforms sinf g).platforms[i]? =
      some { pl with
        x := (float_to_int
          (pl.initial_x + sinf ((g.frame_count : ℚ) * (1 / 20)) * pl.move_range)) } := by
  simp [update_platforms, List.getElem?_map, hi, hm]

theorem sine_offset_bounds (ix r v : ℚ) (hv : -1 ≤ v ∧ v ≤ 1) (hr : 0 ≤ r) :
    ix - r ≤ ix + v * r ∧ ix + v * r ≤ ix + r := by
  obtain ⟨h1, h2⟩ := hv
  constructor <;> nlinarith

theorem trunc_toward_zero_between_ints (q : ℚ) (a r : Int)
    (h1 : (a : ℚ) - (r : ℚ) ≤ q) (h2 : q ≤ (a : ℚ) + (r : ℚ)) :
    (a : ℚ) - (r : ℚ) ≤ (trunc_toward_zero q : ℚ) ∧
    (trunc_toward_zero q : ℚ) ≤ (a : ℚ) + (r : ℚ) := by
  have g1 := trunc_toward_zero_ge_int q (a - r) (by push_cast; exact h1)
  have g2 := trunc_toward_zero_le_int q (a + r) (by push_cast; exact h2)
  have g1q : ((a - r : Int) : ℚ) ≤ (trunc_toward_zero q : ℚ) := by exact_mod_cast g1
  have g2q : (trunc_toward_zero q : ℚ) ≤ ((a + r : Int) : ℚ) := by exact_mod_cast g2
  push_cast at g1q g2q
  exact ⟨g1q, g2q⟩

theorem spawn_occasionally_state (d : Draws) (g : Game) :
    (spawn_occasionally d g).state = g.state := by
  unfold spawn_occasionally
  split <;> rfl

theorem update_game_state (sinf : ℚ → ℚ) (d : Draws) (g : Game) :
    (update_game sinf d g).state = g.state := by
  unfold update_game
  rw [spawn_occasionally_state]
  rfl

theorem main_iteration_quit (sinf : ℚ → ℚ) (d : Draws) (g : Game) :
    main_iteration sinf d 'q' g = none := by
  simp [main_iteration]

theorem main_iteration_pause (sinf : ℚ → ℚ) (d : Draws) (g : Game) :
    main_iteration sinf d 'p' g =
      some { g with state :=
        if g.state = GameState.GAME_RUNNING then GameState.GAME_PAUSED
        else GameState.GAME_RUNNING } := by
  have hq : ¬ ('p' = 'q') := by decide
  unfold main_iteration
  rw [if_neg hq, if_pos rfl]

theorem main_iteration_running (sinf : ℚ → ℚ) (d : Draws) (input : Char) (g : Game)
    (hq : input ≠ 'q') (hp : input ≠ 'p') (hr : g.state = GameState.GAME_RUNNING) :
    main_iteration sinf d input g =
      some { update_game sinf d { g with player := main_handle_input input g.player } with
        frame_count :=
          (update_game sinf d
            { g with player := main_handle_input input g.player }).frame_count + 1 } := by
  unfold main_iteration
  rw [if_neg hq, if_neg hp]
  simp only [hr, if_true]

theorem main_iteration_idle (sinf : ℚ → ℚ) (d : Draws) (input : Char) (g : Game)
    (hq : input ≠ 'q') (hp : input ≠ 'p') (hr : g.state ≠ GameState.GAME_RUNNING) :
    main_iteration sinf d input g = some { g with frame_count := g.frame_count + 1 } := by
  unfold main_iteration
  rw [if_neg hq, if_neg hp]
  simp only [hr, if_false]

theorem main_iteration_state_ne_over (sinf : ℚ → ℚ) (d : Draws) (input : Char)
    (g g1 : Game) (hg : g.state ≠ GameState.GAME_OVER)
    (h : main_iteration sinf d input g = some g1) : g1.state ≠ GameState.GAME_OVER := by
  by_cases hq : input = 'q'
  · subst hq
    rw [main_iteration_quit] at h
    exact absurd h (by simp)
  · by_cases hp : input = 'p'
    · subst hp
      rw [main_iteration_pause, Option.some.injEq] at h
      subst h
      by_cases hr : g.state = GameState.GAME_RUNNING
      · simp [hr]
      · simp [hr]
    · by_cases hr : g.state = GameState.GAME_RUNNING
      · rw [main_iteration_running sinf d input g hq hp hr, Option.some.injEq] at h
        subst h
        show (update_game sinf d _).state ≠ GameState.GAME_OVER
        rw [update_game_state]
        exact hg
      · rw [main_iteration_idle sinf d input g hq hp hr, Option.some.injEq] at h
        subst h
        exact hg

theorem main_loop_state_ne_over (sinf : ℚ → ℚ) :
    ∀ (evs : List (Char × Draws)) (g : Game), g.state ≠ GameState.GAME_OVER →
      (main_loop sinf evs g).state ≠ GameState.GAME_OVER := by
  intro evs
  induction evs with
  | nil => intro g hg; exact hg
  | cons ev rest ih =>
    intro g hg
    unfold main_loop
    rw [if_neg hg]
    cases h : main_iteration sinf ev.2 ev.1 g with
    | none => exact hg
    | some g1 => exact ih g1 (main_iteration_state_ne_over sinf ev.2 ev.1 g g1 hg h)

/-- C13 (as stated, fails on the code): a quit input in the running `example_game` ends
the loop by `break` (`main_iteration` yields no next state) and the loop is left with
`state = GAME_RUNNING`; the state is not taken to `GAME_OVER`. -/
theorem quit_keeps_state_counterexample :
    example_game.state = GameState.GAME_RUNNING ∧
    main_iteration (fun _ => 0) ⟨1, 0, 0, 0⟩ 'q' example_game = none ∧
    (main_loop (fun _ => 0) [('q', ⟨1, 0, 0, 0⟩)] example_game).state =
      GameState.GAME_RUNNING ∧
    (main_loop (fun _ => 0) [('q', ⟨1, 0, 0, 0⟩)] example_game).state ≠
      GameState.GAME_OVER := by
  have h1 : main_iteration (fun _ => 0) ⟨1, 0, 0, 0⟩ 'q' example_game = none := by
    simp [main_iteration]
  have h2 : main_loop (fun _ => 0) [('q', ⟨1, 0, 0, 0⟩)] example_game = example_game := by
    simp [main_loop, h1]
  rw [h2]
  exact ⟨rfl, h1, rfl, by decide⟩

/-- C13 (amended): a pause-toggle input 'p' takes Running to Paused and Paused to
Running; a quit input 'q' ends the loop from any state by `break`, leaving `game.state`
as it was (no code assigns `GAME_OVER`, and no run of the loop reaches it); every other
input leaves the state unchanged; and with `state = GAME_OVER` no iteration runs. -/
theorem state_transitions (sinf : ℚ → ℚ) (d : Draws) (input : Char) (g : Game) :
    (input = 'p' → ∃ g1, main_iteration sinf d input g = some g1 ∧
      (g.state = GameState.GAME_RUNNING → g1.state = GameState.GAME_PAUSED) ∧
      (g.state = GameState.GAME_PAUSED → g1.state = GameState.GAME_RUNNING)) ∧
    (input = 'q' → main_iteration sinf d input g = none ∧
      ∀ rest, main_loop sinf ((input, d) :: rest) g = g) ∧
    (input ≠ 'q' → input ≠ 'p' →
      ∃ g1, main_iteration sinf d input g = some g1 ∧ g1.state = g.state) ∧
    (g.state = GameState.GAME_OVER → ∀ evs, main_loop sinf evs g = g) ∧
    (g.state ≠ GameState.GAME_OVER →
      ∀ evs, (main_loop sinf evs g).state ≠ GameState.GAME_OVER) := by
  refine ⟨?_, ?_, ?_, ?_, ?_⟩
  · intro hp
    subst hp
    refine ⟨_, main_iteration_pause sinf d g, ?_, ?_⟩
    · intro hr
      simp [hr]
    · intro hr
      simp [hr]
  · intro hq
    subst hq
    have h1 := main_iteration_quit sinf d g
    refine ⟨h1, fun rest => ?_⟩
    unfold main_loop
    by_cases ho : g.state = GameState.GAME_OVER
    · rw [if_pos ho]
    · rw [if_neg ho]
      simp only [h1]
  · intro hq hp
    by_cases hr : g.state = GameState.GAME_RUNNING
    · refine ⟨_, main_iteration_running sinf d input g hq hp hr, ?_⟩
      show (update_game sinf d _).state = g.state
      rw [update_game_state]
    · exact ⟨_, main_iteration_idle sinf d input g hq hp hr, rfl⟩
  · intro ho evs
    cases evs with
    | nil => rfl
    | cons ev rest =>
      unfold main_loop
      rw [if_pos ho]
  · intro hg evs
    exact main_loop_state_ne_over sinf evs g hg

/-- Witness for the amended C13: a pause toggle in the running `example_game`. -/
theorem state_transitions_witness :
    ∃ g1, main_iteration (fun _ => 0) ⟨1, 0, 0, 0⟩ 'p' example_game = some g1 ∧
      g1.state = GameState.GAME_PAUSED := by
  obtain ⟨g1, h1, h2, _⟩ :=
    (state_transitions (fun _ => 0) ⟨1, 0, 0, 0⟩ 'p' example_game).1 rfl
  exact ⟨g1, h1, h2 rfl⟩

/-- C14: the entity model is mutated only in the Running update phase.  An iteration that
handles a pause toggle leaves the player, the platforms, the collectible slots and
`frame_count` unchanged; an iteration run while the state is Paused leaves the player, the
platforms and the collectible slots unchanged whatever the input (' ', 'a', 'd'
included), and a quit input produces no new state at all. -/
theorem paused_iterations_keep_entities (sinf : ℚ → ℚ) (d : Draws) (input : Char)
    (g : Game) :
    (input = 'p' → ∃ g1, main_iteration sinf d input g = some g1 ∧
      g1.player = g.player ∧ g1.platforms = g.platforms ∧
      g1.collectibles = g.collectibles ∧ g1.frame_count = g.frame_count) ∧
    (g.state = GameState.GAME_PAUSED →
      (input = 'q' → main_iteration sinf d input g = none) ∧
      (input ≠ 'q' → ∃ g1, main_iteration sinf d input g = some g1 ∧
        g1.player = g.player ∧ g1.platforms = g.platforms ∧
        g1.collectibles = g.collectibles)) := by
  constructor
  · intro hp
    subst hp
    exact ⟨_, main_iteration_pause sinf d g, rfl, rfl, rfl, rfl⟩
  · intro hs
    constructor
    · intro hq
      subst hq
      exact main_iteration_quit sinf d g
    · intro hq
      have hr : g.state ≠ GameState.GAME_RUNNING := by rw [hs]; decide
      by_cases hp : input = 'p'
      · subst hp
        exact ⟨_, main_iteration_pause sinf d g, rfl, rfl, rfl⟩
      · exact ⟨_, main_iteration_idle sinf d input g hq hp hr, rfl, rfl, rfl⟩

/-- Witness for C14: a move-left key while `example_game` is paused. -/
theorem paused_iterations_keep_entities_witness :
    ∃ g1, main_iteration (fun _ => 0) ⟨0, 5, 5, 1⟩ 'a'
        { example_game with state := GameState.GAME_PAUSED } = some g1 ∧
      g1.player = example_game.player ∧ g1.platforms = example_game.platforms ∧
      g1.collectibles = example_game.collectibles :=
  ((paused_iterations_keep_entities (fun _ => 0) ⟨0, 5, 5, 1⟩ 'a'
    { example_game with state := GameState.GAME_PAUSED }).2 rfl).2 (by decide)

/-! ### Player invariants -/

theorem inv_main_handle_input (input : Char) (p : Player)
    (h : (p.jumps_remaining = 0 ∨ p.jumps_remaining = 1 ∨ p.jumps_remaining = 2) ∧
      -15 ≤ p.vel_y ∧ p.vel_y ≤ 15 ∧ -15 ≤ p.vel_x ∧ p.vel_x ≤ 15) :
    ((main_handle_input input p).jumps_remaining = 0 ∨
      (main_handle_input input p).jumps_remaining = 1 ∨
      (main_handle_input input p).jumps_remaining = 2) ∧
    -15 ≤ (main_handle_input input p).vel_y ∧ (main_handle_input input p).vel_y ≤ 15 ∧
    -15 ≤ (main_handle_input input p).vel_x ∧ (main_handle_input input p).vel_x ≤ 15 := by
  obtain ⟨hj, h1, h2, h3, h4⟩ := h
  unfold main_handle_input
  simp only [JUMP_FORCE, DOUBLE_JUMP_FORCE, MOVE_SPEED]
  split_ifs <;> (try dsimp only) <;>
    refine ⟨?_, ?_, ?_, ?_, ?_⟩ <;>
    first
      | assumption
      | omega
      | linarith

theorem inv_integrate (p : Player)
    (h : (p.jumps_remaining = 0 ∨ p.jumps_remaining = 1 ∨ p.jumps_remaining = 2) ∧
      -15 ≤ p.vel_x ∧ p.vel_x ≤ 15) :
    ((integrate p).jumps_remaining = 0 ∨ (integrate p).jumps_remaining = 1 ∨
      (integrate p).jumps_remaining = 2) ∧
    -15 ≤ (integrate p).vel_y ∧ (integrate p).vel_y ≤ 15 ∧
    -15 ≤ (integrate p).vel_x ∧ (integrate p).vel_x ≤ 15 := by
  obtain ⟨hj, h3, h4⟩ := h
  unfold integrate
  simp only [GRAVITY, MAX_VELOCITY]
  refine ⟨hj, ?_, ?_, h3, h4⟩
  · split_ifs <;> linarith
  · split_ifs <;> linarith

theorem inv_land_on (p : Player) (pl : Platform)
    (h : (p.jumps_remaining = 0 ∨ p.jumps_remaining = 1 ∨ p.jumps_remaining = 2) ∧
      -15 ≤ p.vel_y ∧ p.vel_y ≤ 15 ∧ -15 ≤ p.vel_x ∧ p.vel_x ≤ 15) :
    ((land_on p pl).jumps_remaining = 0 ∨ (land_on p pl).jumps_remaining = 1 ∨
      (land_on p pl).jumps_remaining = 2) ∧
    -15 ≤ (land_on p pl).vel_y ∧ (land_on p pl).vel_y ≤ 15 ∧
    -15 ≤ (land_on p pl).vel_x ∧ (land_on p pl).vel_x ≤ 15 := by
  by_cases hg : landing_guard p pl = true
  · rw [land_on_of_guard p pl hg]
    exact ⟨Or.inr (Or.inr rfl), by norm_num, by norm_num, h.2.2.2.1, h.2.2.2.2⟩
  · rw [land_on_of_not_guard p pl (by simpa using hg)]
    exact h

theorem inv_foldl_land_on :
    ∀ (pls : List Platform) (p : Player),
      ((p.jumps_remaining = 0 ∨ p.jumps_remaining = 1 ∨ p.jumps_remaining = 2) ∧
        -15 ≤ p.vel_y ∧ p.vel_y ≤ 15 ∧ -15 ≤ p.vel_x ∧ p.vel_x ≤ 15) →
      (((pls.foldl land_on p).jumps_remaining = 0 ∨
          (pls.foldl land_on p).jumps_remaining = 1 ∨
          (pls.foldl land_on p).jumps_remaining = 2) ∧
        -15 ≤ (pls.foldl land_on p).vel_y ∧ (pls.foldl land_on p).vel_y ≤ 15 ∧
        -15 ≤ (pls.foldl land_on p).vel_x ∧ (pls.foldl land_on p).vel_x ≤ 15) := by
  intro pls
  induction pls with
  | nil => intro p h; exact h
  | cons pl pls ih =>
    intro p h
    rw [List.foldl_cons]
    exact ih _ (inv_land_on p pl h)

theorem inv_pickup (p : Player) (c : Collectible)
    (h : (p.jumps_remaining = 0 ∨ p.jumps_remaining = 1 ∨ p.jumps_remaining = 2) ∧
      -15 ≤ p.vel_y ∧ p.vel_y ≤ 15 ∧ -15 ≤ p.vel_x ∧ p.vel_x ≤ 15) :
    ((pickup p c).jumps_remaining = 0 ∨ (pickup p c).jumps_remaining = 1 ∨
      (pickup p c).jumps_remaining = 2) ∧
    -15 ≤ (pickup p c).vel_y ∧ (pickup p c).vel_y ≤ 15 ∧
    -15 ≤ (pickup p c).vel_x ∧ (pickup p c).vel_x ≤ 15 := by
  obtain ⟨hj, h1, h2, h3, h4⟩ := h
  unfold pickup
  split_ifs
  · exact ⟨hj, h1, h2, h3, h4⟩
  · exact ⟨Or.inr (Or.inr rfl), by dsimp only; linarith, by dsimp only; linarith, h3, h4⟩

theorem inv_collision_slots :
    ∀ (cs : List Collectible) (p : Player),
      ((p.jumps_remaining = 0 ∨ p.jumps_remaining = 1 ∨ p.jumps_remaining = 2) ∧
        -15 ≤ p.vel_y ∧ p.vel_y ≤ 15 ∧ -15 ≤ p.vel_x ∧ p.vel_x ≤ 15) →
      (((collision_slots p cs).1.jumps_remaining = 0 ∨
          (collision_slots p cs).1.jumps_remaining = 1 ∨
          (collision_slots p cs).1.jumps_remaining = 2) ∧
        -15 ≤ (collision_slots p cs).1.vel_y ∧ (collision_slots p cs).1.vel_y ≤ 15 ∧
        -15 ≤ (collision_slots p cs).1.vel_x ∧ (collision_slots p cs).1.vel_x ≤ 15) := by
  intro cs
  induction cs with
  | nil => intro p h; exact h
  | cons c cs ih =>
    intro p h
    simp only [collision_slots]
    split_ifs
    · exact ih _ (inv_pickup p c h)
    · exact ih _ h

theorem inv_screen_boundaries (s : Surface) (p : Player)
    (h : (p.jumps_remaining = 0 ∨ p.jumps_remaining = 1 ∨ p.jumps_remaining = 2) ∧
      -15 ≤ p.vel_y ∧ p.vel_y ≤ 15 ∧ -15 ≤ p.vel_x ∧ p.vel_x ≤ 15) :
    ((screen_boundaries s p).jumps_remaining = 0 ∨
      (screen_boundaries s p).jumps_remaining = 1 ∨
      (screen_boundaries s p).jumps_remaining = 2) ∧
    -15 ≤ (screen_boundaries s p).vel_y ∧ (screen_boundaries s p).vel_y ≤ 15 ∧
    -15 ≤ (screen_boundaries s p).vel_x ∧ (screen_boundaries s p).vel_x ≤ 15 := by
  have step : ∀ (q : Player) (c : Prop) [Decidable c] (a : ℚ),
      ((q.jumps_remaining = 0 ∨ q.jumps_remaining = 1 ∨ q.jumps_remaining = 2) ∧
        -15 ≤ q.vel_y ∧ q.vel_y ≤ 15 ∧ -15 ≤ q.vel_x ∧ q.vel_x ≤ 15) →
      (((if c then ({ q with x := a, vel_x := 0 } : Player) else q).jumps_remaining = 0 ∨
          (if c then ({ q with x := a, vel_x := 0 } : Player) else q).jumps_remaining = 1 ∨
          (if c then ({ q with x := a, vel_x := 0 } : Player) else q).jumps_remaining = 2) ∧
        -15 ≤ (if c then ({ q with x := a, vel_x := 0 } : Player) else q).vel_y ∧
        (if c then ({ q with x := a, vel_x := 0 } : Player) else q).vel_y ≤ 15 ∧
        -15 ≤ (if c then ({ q with x := a, vel_x := 0 } : Player) else q).vel_x ∧
        (if c then ({ q with x := a, vel_x := 0 } : Player) else q).vel_x ≤ 15) := by
    intro q c _ a hq
    split_ifs
    · exact ⟨hq.1, hq.2.1, hq.2.2.1, by norm_num, by norm_num⟩
    · exact hq
  have h1 := step p (p.x < 0) 0 h
  generalize hp1 : (if p.x < 0 then ({ p with x := 0, vel_x := 0 } : Player) else p) = p1
    at h1
  have h2 := step p1 (p1.x > ((toU32 ((s.xres : Int) - PLAYER_WIDTH) : Int) : ℚ))
    ((toU32 ((s.xres : Int) - PLAYER_WIDTH) : Int) : ℚ) h1
  generalize hp2 : (if p1.x > ((toU32 ((s.xres : Int) - PLAYER_WIDTH) : Int) : ℚ) then
      ({ p1 with x := ((toU32 ((s.xres : Int) - PLAYER_WIDTH) : Int) : ℚ), vel_x := 0 } :
        Player) else p1) = p2 at h2
  have e : screen_boundaries s p =
      if p2.y > ((toU32 ((s.yres : Int) - PLAYER_HEIGHT) : Int) : ℚ) then
        { p2 with y := ((toU32 ((s.yres : Int) - PLAYER_HEIGHT) : Int) : ℚ), vel_y := 0,
                  jumps_remaining := 2 }
      else p2 := by
    unfold screen_boundaries
    simp only [hp1, hp2]
  rw [e]
  split_ifs
  · exact ⟨Or.inr (Or.inr rfl), by norm_num, by norm_num, h2.2.2.2.1, h2.2.2.2.2⟩
  · exact h2

theorem inv_update_game (sinf : ℚ → ℚ) (d : Draws) (g : Game)
    (h : (g.player.jumps_remaining = 0 ∨ g.player.jumps_remaining = 1 ∨
        g.player.jumps_remaining = 2) ∧
      -15 ≤ g.player.vel_x ∧ g.player.vel_x ≤ 15) :
    ((update_game sinf d g).player.jumps_remaining = 0 ∨
      (update_game sinf d g).player.jumps_remaining = 1 ∨
      (update_game sinf d g).player.jumps_remaining = 2) ∧
    -15 ≤ (update_game sinf d g).player.vel_y ∧ (update_game sinf d g).player.vel_y ≤ 15 ∧
    -15 ≤ (update_game sinf d g).player.vel_x ∧
    (update_game sinf d g).player.vel_x ≤ 15 := by
  rw [update_game_player]
  apply inv_screen_boundaries
  show ((collision_slots _ _).1.jumps_remaining = 0 ∨ _) ∧ _
  apply inv_collision_slots
  apply inv_foldl_land_on
  exact inv_integrate g.player h

theorem reachable_player_bounds (sinf : ℚ → ℚ) (g : Game) (h : Reachable sinf g) :
    (g.player.jumps_remaining = 0 ∨ g.player.jumps_remaining = 1 ∨
      g.player.jumps_remaining = 2) ∧
    -15 ≤ g.player.vel_y ∧ g.player.vel_y ≤ 15 ∧
    -15 ≤ g.player.vel_x ∧ g.player.vel_x ≤ 15 := by
  induction h with
  | init vinfo mem pd sd =>
    exact ⟨Or.inr (Or.inr rfl), by norm_num [init_game], by norm_num [init_game],
      by norm_num [init_game], by norm_num [init_game]⟩
  | step g g1 d input _ _ hit ih =>
    by_cases hq : input = 'q'
    · subst hq
      rw [main_iteration_quit] at hit
      exact absurd hit (by simp)
    · by_cases hp : input = 'p'
      · subst hp
        rw [main_iteration_pause, Option.some.injEq] at hit
        subst hit
        exact ih
      · by_cases hr : g.state = GameState.GAME_RUNNING
        · rw [main_iteration_running sinf d input g hq hp hr, Option.some.injEq] at hit
          subst hit
          have hin := inv_main_handle_input input g.player ih
          exact inv_update_game sinf d { g with player := main_handle_input input g.player }
            ⟨hin.1, hin.2.2.2.1, hin.2.2.2.2⟩
        · rw [main_iteration_idle sinf d input g hq hp hr, Option.some.injEq] at hit
          subst hit
          exact ih

/-- C12: player invariants on reachable states.  In every state reachable from
`init_game` by any sequence of loop iterations, for any inputs, any values of `rand()`
and any `sinf`, `jumps_remaining` is 0, 1 or 2, `|vel_y| ≤ MAX_VELOCITY` and
`|vel_x| ≤ MAX_VELOCITY`, with `MAX_VELOCITY = 15`. -/
theorem player_invariants (sinf : ℚ → ℚ) (g : Game) (h : Reachable sinf g) :
    (g.player.jumps_remaining = 0 ∨ g.player.jumps_remaining = 1 ∨
      g.player.jumps_remaining = 2) ∧
    |g.player.vel_y| ≤ MAX_VELOCITY ∧ |g.player.vel_x| ≤ MAX_VELOCITY ∧
    MAX_VELOCITY = 15 := by
  obtain ⟨hj, h1, h2, h3, h4⟩ := reachable_player_bounds sinf g h
  unfold MAX_VELOCITY
  exact ⟨hj, abs_le.mpr ⟨h1, h2⟩, abs_le.mpr ⟨h3, h4⟩, rfl⟩

/-- Witness for C12: the state after one iteration with a jump key, started from
`init_game` on a 640x480 surface. -/
theorem player_invariants_witness :
    ∃ g1,
      main_iteration (fun _ => 0) ⟨1, 0, 0, 0⟩ ' '
          (init_game ⟨640, 480, 32, 2560⟩ [] (fun _ => ⟨0, 0, 0, 0, 0⟩)
            (fun _ => ⟨1, 0, 0, 0⟩)) = some g1 ∧
      (g1.player.jumps_remaining = 0 ∨ g1.player.jumps_remaining = 1 ∨
        g1.player.jumps_remaining = 2) ∧
      |g1.player.vel_y| ≤ MAX_VELOCITY ∧ |g1.player.vel_x| ≤ MAX_VELOCITY :=
  have hit := main_iteration_running (fun _ => 0) ⟨1, 0, 0, 0⟩ ' '
    (init_game ⟨640, 480, 32, 2560⟩ [] (fun _ => ⟨0, 0, 0, 0, 0⟩) (fun _ => ⟨1, 0, 0, 0⟩))
    (by decide) (by decide) rfl
  have h := player_invariants (fun _ => 0) _
    (Reachable.step _ _ ⟨1, 0, 0, 0⟩ ' ' (Reachable.init _ _ _ _) (by decide) hit)
  ⟨_, hit, h.1, h.2.1, h.2.2.1⟩

/-! ### Pixel memory -/

/-- C15 (fails on the code): on a 2x1 surface with 24 bits per pixel and a stride of 6
bytes, whose memory holds 0xFF everywhere, `draw_rect(0, 0, 1, 1, 0xFFFFFF)` performs the
single store of pixel (0,0); that store also writes 0 to offset 3, the first byte of the
neighbouring pixel (1,0); and the store of pixel (1,0) writes 0 to offset 6, which is
`width * height * 3`, one byte past the pixel data. -/
theorem store_pixel_24bpp_writes_fourth_byte :
    draw_rect ⟨2, 1, 24, 6⟩ 0 0 1 1 16777215 = [⟨0, 0, 16777215⟩] ∧
    location ⟨2, 1, 24, 6⟩ 1 0 = 3 ∧
    store_pixel ⟨2, 1, 24, 6⟩ (fun _ => 255) ⟨0, 0, 16777215⟩ 3 = 0 ∧
    screensize ⟨2, 1, 24, 6⟩ = 6 ∧
    store_pixel ⟨2, 1, 24, 6⟩ (fun _ => 255) ⟨1, 0, 16777215⟩ 6 = 0 := by
  decide

/-- What the store block does compute: with 32 bits per pixel and a non-overflowing
offset, the store of an in-bounds pixel writes B, G, R and 0 to the four bytes at
`x * 4 + y * line_length` and changes no other byte. -/
theorem store_pixel_32bpp (s : Surface) (m : Memory) (w : PixelWrite)
    (hb : s.bits_per_pixel = 32) (hx : 0 ≤ w.x) (hy : 0 ≤ w.y)
    (hxb : w.x < 2147483648) (hyb : w.y < 2147483648)
    (hloc : w.x * 4 + w.y * (s.line_length : Int) < 4294967296) :
    location s w.x w.y = w.x * 4 + w.y * (s.line_length : Int) ∧
    store_pixel s m w (location s w.x w.y) = w.color &&& 0xFF ∧
    store_pixel s m w (location s w.x w.y + 1) = (w.color >>> 8) &&& 0xFF ∧
    store_pixel s m w (location s w.x w.y + 2) = (w.color >>> 16) &&& 0xFF ∧
    store_pixel s m w (location s w.x w.y + 3) = 0 ∧
    (∀ a, a < location s w.x w.y ∨ location s w.x w.y + 4 ≤ a →
      store_pixel s m w a = m a) := by
  have hyl : 0 ≤ w.y * (s.line_length : Int) := mul_nonneg hy (Int.natCast_nonneg _)
  have hl : location s w.x w.y = w.x * 4 + w.y * (s.line_length : Int) := by
    unfold location
    rw [hb]
    have e : (((32 / 8 : Nat) : Nat) : Int) = 4 := by decide
    rw [e, toU32_eq_self hx (by omega), toU32_eq_self hy (by omega),
      toU32_eq_self (n := w.x * 4) (by omega) (by omega),
      toU32_eq_self hyl (by omega), toU32_eq_self (by omega) hloc]
  refine ⟨hl, ?_, ?_, ?_, ?_, ?_⟩
  · simp [store_pixel, Function.update_apply]
  · simp [store_pixel, Function.update_apply]
  · simp [store_pixel, Function.update_apply]
  · simp [store_pixel, Function.update_apply]
  · intro a ha
    have h0 : a ≠ location s w.x w.y := by omega
    have h1 : a ≠ location s w.x w.y + 1 := by omega
    have h2 : a ≠ location s w.x w.y + 2 := by omega
    have h3 : a ≠ location s w.x w.y + 3 := by omega
    simp [store_pixel, Function.update_apply, h0, h1, h2, h3]

/-- C17: present is a verbatim copy.  After `swap_buffers` every byte of the display
surface (its `screensize` bytes) equals the corresponding byte of the off-screen buffer
and the buffer is unchanged; `clear_buffer` followed by `swap_buffers` leaves all these
bytes zero, whatever the two memories held before.  The byte count is the value of
`xres * yres * bits_per_pixel / 8`; it equals `xres * yres * (bits_per_pixel / 8)` when
the product fits in 32 bits and `bits_per_pixel` is a multiple of 8. -/
theorem present_verbatim (s : Surface) (f : Frame) :
    (∀ a, 0 ≤ a → a < screensize s → (swap_buffers s f).fbp a = f.buffer a) ∧
    (swap_buffers s f).buffer = f.buffer ∧
    (∀ a, 0 ≤ a → a < screensize s → (swap_buffers s (clear_buffer s f)).fbp a = 0) ∧
    (s.xres * s.yres * s.bits_per_pixel < 4294967296 → 8 ∣ s.bits_per_pixel →
      screensize s = ((s.xres * s.yres * (s.bits_per_pixel / 8) : Nat) : Int)) := by
  refine ⟨?_, rfl, ?_, ?_⟩
  · intro a h0 h1
    simp [swap_buffers, h0, h1]
  · intro a h0 h1
    simp [swap_buffers, clear_buffer, h0, h1]
  · intro hfit hdiv
    obtain ⟨k, hk⟩ := hdiv
    have hxy : s.xres * s.yres < 4294967296 ∨ s.bits_per_pixel = 0 := by
      by_cases hb : s.bits_per_pixel = 0
      · right; exact hb
      · left
        have : s.xres * s.yres * 1 ≤ s.xres * s.yres * s.bits_per_pixel :=
          Nat.mul_le_mul_left _ (Nat.one_le_iff_ne_zero.mpr hb)
        omega
    unfold screensize
    rcases hxy with hxy | hb
    · have e1 : toU32 ((s.xres : Int) * (s.yres : Int)) = ((s.xres * s.yres : Nat) : Int) := by
        rw [toU32_eq_self (by positivity) (by exact_mod_cast hxy)]
        push_cast
        rfl
      have e2 : toU32 (((s.xres * s.yres : Nat) : Int) * (s.bits_per_pixel : Int)) =
          ((s.xres * s.yres * s.bits_per_pixel : Nat) : Int) := by
        rw [toU32_eq_self (by positivity) (by exact_mod_cast hfit)]
        push_cast
        rfl
      rw [e1, e2, hk]
      have e3 : 8 * k / 8 = k := Nat.mul_div_cancel_left k (by decide)
      rw [e3]
      have e4 : s.xres * s.yres * (8 * k) = 8 * (s.xres * s.yres * k) := by ring
      rw [e4]
      push_cast
      exact Int.mul_ediv_cancel_left _ (by decide)
    · rw [hb]
      simp [toU32]

/-- Witness for C17: byte 5 of a 2x1 surface with 32 bits per pixel after a clear and a
present, the two memories holding 7 and 9 before. -/
theorem present_verbatim_witness :
    (5 : Int) < screensize ⟨2, 1, 32, 8⟩ ∧
    (swap_buffers ⟨2, 1, 32, 8⟩
      (clear_buffer ⟨2, 1, 32, 8⟩ ⟨fun _ => 7, fun _ => 9⟩)).fbp 5 = 0 :=
  ⟨by decide,
   (present_verbatim ⟨2, 1, 32, 8⟩ ⟨fun _ => 7, fun _ => 9⟩).2.2.1 5 (by decide)
     (by decide)⟩

/-! ### Platforms of reachable states -/

theorem spawn_occasionally_platforms (d : Draws) (g : Game) :
    (spawn_occasionally d g).platforms = g.platforms := by
  unfold spawn_occasionally
  split <;> rfl

theorem update_game_platforms (sinf : ℚ → ℚ) (d : Draws) (g : Game) :
    (update_game sinf d g).platforms = (update_platforms sinf g).platforms := by
  unfold update_game
  rw [spawn_occasionally_platforms]
  rfl

theorem update_platforms_anchor (sinf : ℚ → ℚ) (g : Game)
    (h : ∀ pl ∈ g.platforms, ∃ a r : Int,
      pl.initial_x = (a : ℚ) ∧ pl.move_range = (r : ℚ) ∧ 0 ≤ pl.move_range) :
    ∀ pl ∈ (update_platforms sinf g).platforms, ∃ a r : Int,
      pl.initial_x = (a : ℚ) ∧ pl.move_range = (r : ℚ) ∧ 0 ≤ pl.move_range := by
  intro pl hpl
  simp only [update_platforms, List.mem_map] at hpl
  obtain ⟨pl0, hm, rfl⟩ := hpl
  have h0 := h pl0 hm
  by_cases hmv : pl0.is_moving ≠ 0
  · simp only [if_pos hmv]
    exact h0
  · simp only [if_neg hmv]
    exact h0

/-- In every reachable state the anchor and the range of every platform are
integer-valued and the range is not negative. -/
theorem reachable_platform_anchor (sinf : ℚ → ℚ) (g : Game) (h : Reachable sinf g) :
    ∀ pl ∈ g.platforms, ∃ a r : Int,
      pl.initial_x = (a : ℚ) ∧ pl.move_range = (r : ℚ) ∧ 0 ≤ pl.move_range := by
  induction h with
  | init vinfo mem pd sd =>
    intro pl hpl
    simp only [init_game, List.mem_map] at hpl
    obtain ⟨i, _, rfl⟩ := hpl
    refine ⟨_, ((100 + (pd i).range_roll % 100 : Nat) : Int), rfl, ?_, ?_⟩
    · simp only [init_platform]
      push_cast
      rfl
    · simp only [init_platform]
      positivity
  | step g g1 d input _ _ hit ih =>
    by_cases hq : input = 'q'
    · subst hq
      rw [main_iteration_quit] at hit
      exact absurd hit (by simp)
    · by_cases hp : input = 'p'
      · subst hp
        rw [main_iteration_pause, Option.some.injEq] at hit
        subst hit
        exact ih
      · by_cases hr : g.state = GameState.GAME_RUNNING
        · rw [main_iteration_running sinf d input g hq hp hr, Option.some.injEq] at hit
          subst hit
          show ∀ pl ∈ (update_game sinf d _).platforms, _
          rw [update_game_platforms]
          exact update_platforms_anchor sinf
            { g with player := main_handle_input input g.player } ih
        · rw [main_iteration_idle sinf d input g hq hp hr, Option.some.injEq] at hit
          subst hit
          exact ih

/-- On reachable states the anchor and the range are integer-valued, so the oscillation
bound of C16 holds for every moving platform whose range lies within the 32-bit `int`:
after `update_platforms`, `initial_x - move_range ≤ x ≤ initial_x + move_range`. -/
theorem reachable_platform_oscillation (sinf : ℚ → ℚ)
    (hsin : ∀ t, -1 ≤ sinf t ∧ sinf t ≤ 1) (g : Game) (h : Reachable sinf g)
    (i : Nat) (pl : Platform) (hi : g.platforms[i]? = some pl) (hm : pl.is_moving ≠ 0)
    (hmin : (-2147483648 : ℚ) ≤ pl.initial_x - pl.move_range)
    (hmax : pl.initial_x + pl.move_range ≤ (2147483647 : ℚ)) :
    ∃ x' : Int,
      (update_platforms sinf g).platforms[i]? = some { pl with x := x' } ∧
      pl.initial_x - pl.move_range ≤ (x' : ℚ) ∧
      (x' : ℚ) ≤ pl.initial_x + pl.move_range := by
  obtain ⟨a, r, ha, hr, h0⟩ :=
    reachable_platform_anchor sinf g h pl (List.mem_iff_getElem?.mpr ⟨i, hi⟩)
  obtain ⟨hlo, hhi⟩ := sine_offset_bounds pl.initial_x pl.move_range
    (sinf ((g.frame_count : ℚ) * (1 / 20))) (hsin _) h0
  have hconv := float_to_int_of_range
    (pl.initial_x + sinf ((g.frame_count : ℚ) * (1 / 20)) * pl.move_range)
    (le_trans hmin hlo) (le_trans hhi hmax)
  have hstore := update_platforms_moving sinf g i pl hi hm
  rw [hconv] at hstore
  have hb := trunc_toward_zero_between_ints
    (pl.initial_x + sinf ((g.frame_count : ℚ) * (1 / 20)) * pl.move_range) a r
    (by rw [← ha, ← hr]; exact hlo) (by rw [← ha, ← hr]; exact hhi)
  rw [← ha, ← hr] at hb
  exact ⟨_, hstore, hb⟩

/-! ### Resting next to a moving platform -/

theorem truncate_979_tenths : float_to_int (979 / 10 : ℚ) = 97 := by
  rw [float_to_int_of_range _ (by norm_num) (by norm_num), trunc_toward_zero_eq]
  norm_num

theorem example_slide_tick :
    (update_game (fun _ => 479 / 1000) ⟨1, 0, 0, 0⟩ example_slide).player =
      ⟨83, 70, 0, 0, 2, 0, 1⟩ := by
  have hi : integrate example_slide.player = ⟨85, 92, 0, 1, 2, 0, 1⟩ := by
    norm_num [integrate, example_slide, GRAVITY, MAX_VELOCITY]
  have hq : (update_platforms (fun _ => 479 / 1000)
      { example_slide with player := integrate example_slide.player }).platforms[0]? =
      some ⟨97, 100, 80, 1, 2, 50, 100⟩ := by
    rw [update_platforms_moving (fun _ => 479 / 1000)
      { example_slide with player := integrate example_slide.player } 0
      ⟨150, 100, 80, 1, 2, 50, 100⟩ rfl (by decide)]
    have e : (({ example_slide with player := integrate example_slide.player } :
        Game).frame_count : ℚ) = 10 := by
      norm_num [example_slide]
    simp only [e]
    norm_num
    exact truncate_979_tenths
  have hg : landing_guard ⟨85, 92, 0, 1, 2, 0, 1⟩ ⟨97, 100, 80, 1, 2, 50, 100⟩ = true := by
    norm_num [landing_guard, overlaps_platform, check_collision, PLAYER_WIDTH,
      PLAYER_HEIGHT, PLATFORM_HEIGHT]
  have hl : land_on ⟨85, 92, 0, 1, 2, 0, 1⟩ ⟨97, 100, 80, 1, 2, 50, 100⟩ =
      ⟨83, 70, 0, 0, 2, 0, 1⟩ := by
    rw [land_on_of_guard _ _ hg]
    norm_num [PLAYER_HEIGHT]
  have hloop : (update_platforms (fun _ => 479 / 1000)
      { example_slide with player := integrate example_slide.player }).platforms.foldl
        land_on (integrate example_slide.player) = ⟨83, 70, 0, 0, 2, 0, 1⟩ := by
    rw [hi] at hq ⊢
    rw [foldl_land_on_first _ _ 0 _ hq (fun i _ h0 _ => absurd h0 (by omega)) hg, hl]
  have hb : (update_game_before_boundaries (fun _ => 479 / 1000) example_slide).player =
      ⟨83, 70, 0, 0, 2, 0, 1⟩ := by
    have h1 : (update_game_before_boundaries (fun _ => 479 / 1000) example_slide).player =
        (collision_slots
          ((update_platforms (fun _ => 479 / 1000)
            { example_slide with player := integrate example_slide.player }).platforms.foldl
              land_on (integrate example_slide.player)) []).1 := rfl
    rw [h1, hloop]
    rfl
  rw [update_game_player, hb]
  exact screen_boundaries_inside _ _ (by norm_num) (by norm_num [example_slide, PLAYER_WIDTH])
    (by norm_num [example_slide, PLAYER_HEIGHT]) (by decide) (by decide)

theorem example_level_tick :
    (update_game (fun _ => 479 / 1000) ⟨1, 0, 0, 0⟩ example_level).player =
      ⟨83, 91, 0, 0, 2, 0, 1⟩ := by
  have hi : integrate example_level.player = ⟨85, 92, 0, 1, 2, 0, 1⟩ := by
    norm_num [integrate, example_level, GRAVITY, MAX_VELOCITY]
  have hq : (update_platforms (fun _ => 479 / 1000)
      { example_level with player := integrate example_level.player }).platforms[0]? =
      some ⟨97, 121, 80, 1, 2, 50, 100⟩ := by
    rw [update_platforms_moving (fun _ => 479 / 1000)
      { example_level with player := integrate example_level.player } 0
      ⟨150, 121, 80, 1, 2, 50, 100⟩ rfl (by decide)]
    have e : (({ example_level with player := integrate example_level.player } :
        Game).frame_count : ℚ) = 10 := by
      norm_num [example_level]
    simp only [e]
    norm_num
    exact truncate_979_tenths
  have hg : landing_guard ⟨85, 92, 0, 1, 2, 0, 1⟩ ⟨97, 121, 80, 1, 2, 50, 100⟩ = true := by
    norm_num [landing_guard, overlaps_platform, check_collision, PLAYER_WIDTH,
      PLAYER_HEIGHT, PLATFORM_HEIGHT]
  have hl : land_on ⟨85, 92, 0, 1, 2, 0, 1⟩ ⟨97, 121, 80, 1, 2, 50, 100⟩ =
      ⟨83, 91, 0, 0, 2, 0, 1⟩ := by
    rw [land_on_of_guard _ _ hg]
    norm_num [PLAYER_HEIGHT]
  have hloop : (update_platforms (fun _ => 479 / 1000)
      { example_level with player := integrate example_level.player }).platforms.foldl
        land_on (integrate example_level.player) = ⟨83, 91, 0, 0, 2, 0, 1⟩ := by
    rw [hi] at hq ⊢
    rw [foldl_land_on_first _ _ 0 _ hq (fun i _ h0 _ => absurd h0 (by omega)) hg, hl]
  have hb : (update_game_before_boundaries (fun _ => 479 / 1000) example_level).player =
      ⟨83, 91, 0, 0, 2, 0, 1⟩ := by
    have h1 : (update_game_before_boundaries (fun _ => 479 / 1000) example_level).player =
        (collision_slots
          ((update_platforms (fun _ => 479 / 1000)
            { example_level with player := integrate example_level.player }).platforms.foldl
              land_on (integrate example_level.player)) []).1 := rfl
    rw [h1, hloop]
    rfl
  rw [update_game_player, hb]
  exact screen_boundaries_inside _ _ (by norm_num) (by norm_num [example_level, PLAYER_WIDTH])
    (by norm_num [example_level, PLAYER_HEIGHT]) (by decide) (by decide)

/-- C11 (as stated, fails on the code), two inputs.  In `example_slide` the player
stands on the static platform of slot 1, overlaps no other platform (neither with its
box nor with the box one pixel lower), overlaps no collectible and is inside the screen.
In the tick (frame 10, sine value 479/1000) `update_platforms` first moves the platform of
slot 0 to `x = 97`, under the player, who then lands on it: the tick ends at `(83, 70)`,
not at the `(85, 91)` it started from.  In `example_level` the moving platform has the
height of the resting platform: once moved to `x = 97` it still does not overlap the
player's box, only the box after integration, and the tick ends at `(83, 91)`: `x` has
changed. -/
theorem resting_moving_platform_counterexample :
    example_slide.platforms[1]? = some ⟨50, 121, 100, 0, 1, 50, 100⟩ ∧
    example_slide.player = ⟨85, ((((121 : Int) - PLAYER_HEIGHT : Int)) : ℚ), 0, 0, 2, 0, 1⟩ ∧
    overlaps_platform example_slide.player ⟨150, 100, 80, 1, 2, 50, 100⟩ = false ∧
    overlaps_platform (integrate example_slide.player)
      ⟨150, 100, 80, 1, 2, 50, 100⟩ = false ∧
    example_slide.collectibles = [] ∧
    (update_game (fun _ => 479 / 1000) ⟨1, 0, 0, 0⟩ example_slide).player =
      ⟨83, 70, 0, 0, 2, 0, 1⟩ ∧
    (update_game (fun _ => 479 / 1000) ⟨1, 0, 0, 0⟩ example_slide).player.y ≠
      example_slide.player.y ∧
    example_level.platforms[1]? = some ⟨50, 121, 100, 0, 1, 50, 100⟩ ∧
    example_level.player = example_slide.player ∧
    overlaps_platform example_level.player ⟨150, 121, 80, 1, 2, 50, 100⟩ = false ∧
    overlaps_platform example_level.player ⟨97, 121, 80, 1, 2, 50, 100⟩ = false ∧
    (update_game (fun _ => 479 / 1000) ⟨1, 0, 0, 0⟩ example_level).player =
      ⟨83, 91, 0, 0, 2, 0, 1⟩ ∧
    (update_game (fun _ => 479 / 1000) ⟨1, 0, 0, 0⟩ example_level).player.x ≠
      example_level.player.x := by
  have hi : integrate example_slide.player = ⟨85, 92, 0, 1, 2, 0, 1⟩ := by
    norm_num [integrate, example_slide, GRAVITY, MAX_VELOCITY]
  refine ⟨rfl, ?_, ?_, ?_, rfl, example_slide_tick, ?_, rfl, rfl, ?_, ?_,
    example_level_tick, ?_⟩
  · norm_num [example_slide, PLAYER_HEIGHT]
  · norm_num [overlaps_platform, check_collision, example_slide, PLAYER_WIDTH,
      PLAYER_HEIGHT, PLATFORM_HEIGHT]
  · rw [hi]
    norm_num [overlaps_platform, check_collision, PLAYER_WIDTH, PLAYER_HEIGHT,
      PLATFORM_HEIGHT]
  · rw [example_slide_tick]
    norm_num [example_slide]
  · norm_num [overlaps_platform, check_collision, example_level, PLAYER_WIDTH,
      PLAYER_HEIGHT, PLATFORM_HEIGHT]
  · norm_num [overlaps_platform, check_collision, example_level, PLAYER_WIDTH,
      PLAYER_HEIGHT, PLATFORM_HEIGHT]
  · rw [example_level_tick]
    norm_num [example_level]

end Pfs
